import Mathlib

/-! # Rendering layer of the logging subsystem (`subsys/logging/log_output.c`)

A shallow embedding of `log_output.c` and the properties of its testable
contract.  Machine integers are natural numbers with explicit reduction
modulo `2 ^ w` wherever the C code can wrap.  Loops whose trip count is not
syntactically bounded carry a fuel argument and return `none` when the fuel
runs out; `none` is also the result of an operation that C leaves undefined
(division by zero, an access outside an array).
-/

namespace LogOutput

/-! ## Build configuration -/

/-- The Kconfig switches the file reads through `IS_ENABLED` and `#ifdef`. -/
structure Kconfig where
  LOG_MODE_IMMEDIATE : Bool
  LOG_TIMESTAMP_64BIT : Bool
  LOG_BACKEND_NET : Bool
  NEWLIB_LIBC : Bool
  LOG_OUTPUT_FORMAT_LINUX_TIMESTAMP : Bool
  LOG_INFO_COLOR_GREEN : Bool
  LOG_BACKEND_SHOW_COLOR : Bool
  LOG : Bool

/-- Width in bits of `log_timestamp_t`. -/
def Kconfig.timestamp_bits (k : Kconfig) : Nat :=
  if k.LOG_TIMESTAMP_64BIT then 64 else 32

/-! ## Clock configuration -/

/-- The two file-scope statics `freq` and `timestamp_div`. -/
structure Clock where
  freq : Nat
  timestamp_div : Nat
deriving DecidableEq, Repr

/-- The statics before any configuration call (zero-initialised). -/
def Clock.initial : Clock := ⟨0, 0⟩

/-- The `while (frequency > 1000000)` loop of `log_output_timestamp_freq_set`;
`w` is the width of `timestamp_div`. -/
def freq_set_loop (w : Nat) : Nat → Nat → Nat → Option (Nat × Nat)
  | 0, _, _ => none
  | fuel + 1, frequency, timestamp_div =>
    if frequency > 1000000 then
      freq_set_loop w fuel (frequency / 2) ((timestamp_div * 2) % 2 ^ w)
    else
      some (frequency, timestamp_div)

/-- Function `log_output_timestamp_freq_set`: the argument is a `uint32_t`, so 33
rounds of halving always suffice. -/
def log_output_timestamp_freq_set (k : Kconfig) (frequency : Nat) : Option Clock :=
  (freq_set_loop k.timestamp_bits 33 (frequency % 2 ^ 32) 1).map
    fun r => { freq := r.1, timestamp_div := r.2 }

/-- Function `log_output_timestamp_to_us`: the parameter is a `uint32_t`, the product
is formed in `uint64_t`; a division by zero is undefined (`none`). -/
def log_output_timestamp_to_us (c : Clock) (timestamp : Nat) : Option Nat :=
  if c.timestamp_div = 0 then none
  else
    let timestamp := ((timestamp % 2 ^ 32) / c.timestamp_div) % 2 ^ 32
    if c.freq = 0 then none
    else some (((timestamp * 1000000) % 2 ^ 64) / c.freq)

/-! ## Calendar algorithm -/

/-- Macro `SECONDS_IN_DAY` (`86400U`). -/
def SECONDS_IN_DAY : Nat := 86400

/-- The 12-entry table `days_in_month`. -/
def days_in_month : List Nat := [31, 28, 31, 30, 31, 30, 31, 31, 30, 31, 30, 31]

/-- Structure `YMD_date`; the three members are `uint32_t`. -/
structure YMD_date where
  year : Nat
  month : Nat
  day : Nat
deriving DecidableEq, Repr

/-- Function `is_leap_year`. -/
def is_leap_year (year : Nat) : Bool :=
  ((year % 4 == 0) && (year % 100 != 0)) || (year % 400 == 0)

/-- The `while (1)` loop of `get_YMD_from_seconds` that finds the year: `year` is a
`uint32_t` and wraps on increment, `seconds` is a `uint64_t`; the year lengths are
`unsigned int` products. -/
def year_loop : Nat → Nat → Nat → Option (Nat × Nat)
  | 0, _, _ => none
  | fuel + 1, year, seconds =>
    let tmp := if is_leap_year year then (366 * SECONDS_IN_DAY) % 2 ^ 32
               else (365 * SECONDS_IN_DAY) % 2 ^ 32
    if tmp > seconds then some (year, seconds)
    else year_loop fuel ((year + 1) % 2 ^ 32) (seconds - tmp)

/-- The `for (i = 0; i < sizeof(days_in_month); i++)` loop of `get_YMD_from_seconds`.
The first argument counts the iterations left before `i` reaches the bound
(`sizeof(days_in_month)` is 48); the result is the increment of `month` (the index at
the `break`, or 0 when the loop runs to its bound) and the seconds left.  Reading the
table at an index outside its 12 entries is undefined (`none`). -/
def month_loop (year : Nat) : Nat → Nat → Nat → Option (Nat × Nat)
  | 0, _, seconds => some (0, seconds)
  | n + 1, i, seconds =>
    match days_in_month[i]? with
    | none => none
    | some d =>
      let tmp := if i == 1 && is_leap_year year then ((d + 1) * SECONDS_IN_DAY) % 2 ^ 32
                 else (d * SECONDS_IN_DAY) % 2 ^ 32
      if tmp > seconds then some (i, seconds)
      else month_loop year n (i + 1) (seconds - tmp)

/-- Function `get_YMD_from_seconds`.  Every round of the year loop removes at least
one second, so `seconds + 1` rounds of fuel never run out. -/
def get_YMD_from_seconds (seconds : Nat) : Option YMD_date :=
  match year_loop (seconds % 2 ^ 64 + 1) 1970 (seconds % 2 ^ 64) with
  | none => none
  | some (year, seconds) =>
    match month_loop year 48 0 seconds with
    | none => none
    | some (i, seconds) =>
      some { year := year, month := (1 + i) % 2 ^ 32,
             day := (1 + seconds / SECONDS_IN_DAY) % 2 ^ 32 }

/-! ## The Gregorian calendar, stated independently of the loops -/

/-- The leap rule: divisible by 4 and not by 100, or divisible by 400. -/
def gregorian_leap (y : Nat) : Prop := (y % 4 = 0 ∧ y % 100 ≠ 0) ∨ y % 400 = 0

/-- The leap rule is decidable. -/
instance gregorian_leap_decidable (y : Nat) : Decidable (gregorian_leap y) := by
  unfold gregorian_leap; infer_instance

/-- Number of days of year `y`. -/
def gregorian_year_days (y : Nat) : Nat := if gregorian_leap y then 366 else 365

/-- Number of days of month `m` (1 to 12) of year `y`. -/
def gregorian_month_days (y m : Nat) : Nat :=
  match m with
  | 1 => 31
  | 2 => if gregorian_leap y then 29 else 28
  | 3 => 31
  | 4 => 30
  | 5 => 31
  | 6 => 30
  | 7 => 31
  | 8 => 31
  | 9 => 30
  | 10 => 31
  | 11 => 30
  | 12 => 31
  | _ => 0

/-- Number of leap years among the years `1 .. y - 1`. -/
def leap_years_before (y : Nat) : Nat := (y - 1) / 4 - (y - 1) / 100 + (y - 1) / 400

/-- Days from 1970-01-01 to January 1st of year `y`. -/
def days_before_year (y : Nat) : Nat :=
  365 * (y - 1970) + (leap_years_before y - leap_years_before 1970)

/-- Days from January 1st of year `y` to the first day of month `m`. -/
def days_before_month (y m : Nat) : Nat :=
  ((List.range (m - 1)).map fun j => gregorian_month_days y (j + 1)).sum

/-- Whole days from 1970-01-01 to the date `y-m-d`. -/
def days_from_epoch (y m d : Nat) : Nat :=
  days_before_year y + days_before_month y m + (d - 1)

/-- The triple is a date of the Gregorian calendar, not before 1970. -/
def gregorian_date (y m d : Nat) : Prop :=
  1970 ≤ y ∧ 1 ≤ m ∧ m ≤ 12 ∧ 1 ≤ d ∧ d ≤ gregorian_month_days y m

/-! ## Characters and `cbvprintf` conversions -/

/-- The bytes of a string literal of the source (all literals are ASCII). -/
def str (s : String) : List Nat := s.toList.map Char.toNat

/-- The character of one digit: `0`-`9`, then `a`-`f`. -/
def digit_char (d : Nat) : Nat := if d < 10 then 48 + d else 87 + d

/-- Digits of `n` in the given base, most significant first, in front of `acc`; the
first argument bounds the number of digits. -/
def digits_core (base : Nat) : Nat → Nat → List Nat → List Nat
  | 0, _, acc => acc
  | fuel + 1, n, acc =>
    if n < base then digit_char n :: acc
    else digits_core base fuel (n / base) (digit_char (n % base) :: acc)

/-- Modelled from the spec: `cbvprintf` (lib/os) is not part of the file; this is the
decimal rendering of an unsigned value of at most 64 bits (at most 20 digits), as the
`u` conversion and `snprintk` produce it. -/
def dec (n : Nat) : List Nat := digits_core 10 20 n []

/-- Modelled from the spec: `cbvprintf` is not part of the file; lowercase hexadecimal
rendering of an unsigned value of at most 64 bits, as the `x` conversion produces it. -/
def hex (n : Nat) : List Nat := digits_core 16 16 n []

/-- Left padding of a rendered number to a minimum field width. -/
def pad (c width : Nat) (s : List Nat) : List Nat := List.replicate (width - s.length) c ++ s

/-- Modelled from the spec: `cbvprintf` is not part of the file; the conversion
`%0<width>u` (also `lu`, `llu`): decimal, zero-padded to the width, never truncated. -/
def fmt_u0 (width n : Nat) : List Nat := pad 48 width (dec n)

/-- Modelled from the spec: `cbvprintf` is not part of the file; the conversion
`%02x`. -/
def fmt_x02 (n : Nat) : List Nat := pad 48 2 (hex n)

/-- Modelled from the spec: `cbvprintf` is not part of the file; the conversion `%d`
of a signed value. -/
def fmt_d (z : Int) : List Nat := if z < 0 then 45 :: dec z.natAbs else dec z.toNat

/-- Modelled from the spec: `cbvprintf` is not part of the file; the conversion
`%5ld`: right-justified in a field of 5, padded with spaces. -/
def fmt_5ld (z : Int) : List Nat := pad 32 5 (fmt_d z)

/-- Modelled from the spec: `cbvprintf` is not part of the file; the conversion
`%06d`: the zero padding follows the sign. -/
def fmt_06d (z : Int) : List Nat :=
  if z < 0 then 45 :: pad 48 5 (dec z.natAbs) else pad 48 6 (dec z.toNat)

/-- The value of `w` bits read as a two's complement signed integer. -/
def to_signed (w n : Nat) : Int :=
  if n % 2 ^ w < 2 ^ (w - 1) then (n % 2 ^ w : Nat) else (n % 2 ^ w : Nat) - (2 ^ w : Nat)

/-- Modelled from the spec: `isprint` of the C library is not part of the file; the
printable characters are the ASCII range from space to tilde (a byte from 0x80 up,
read as a `char`, is not printable). -/
def isprint (c : Nat) : Bool := decide (32 ≤ c) && decide (c ≤ 126)

/-! ## Format flags and constants of the logging headers -/

/-- Modelled from the spec: the flag bits are declared in `log_output.h`, which is not
part of the file; the spec lists them as independent bits. -/
def LOG_OUTPUT_FLAG_COLORS : Nat := 1
/-- Modelled from the spec: see `LOG_OUTPUT_FLAG_COLORS`. -/
def LOG_OUTPUT_FLAG_TIMESTAMP : Nat := 2
/-- Modelled from the spec: see `LOG_OUTPUT_FLAG_COLORS`. -/
def LOG_OUTPUT_FLAG_FORMAT_TIMESTAMP : Nat := 4
/-- Modelled from the spec: see `LOG_OUTPUT_FLAG_COLORS`. -/
def LOG_OUTPUT_FLAG_LEVEL : Nat := 8
/-- Modelled from the spec: see `LOG_OUTPUT_FLAG_COLORS`. -/
def LOG_OUTPUT_FLAG_CRLF_NONE : Nat := 16
/-- Modelled from the spec: see `LOG_OUTPUT_FLAG_COLORS`. -/
def LOG_OUTPUT_FLAG_CRLF_LFONLY : Nat := 32
/-- Modelled from the spec: see `LOG_OUTPUT_FLAG_COLORS`. -/
def LOG_OUTPUT_FLAG_FORMAT_SYSLOG : Nat := 64

/-- The C test `flags & FLAG` read as a truth value. -/
def flag_set (flags flag : Nat) : Bool := (flags &&& flag) != 0

/-- Modelled from the spec: the severity numbers are declared in `log_core.h`, which is
not part of the file: none, err, wrn, inf, dbg in the order of the `severity` table. -/
def LOG_LEVEL_NONE : Nat := 0
/-- Modelled from the spec: see `LOG_LEVEL_NONE`. -/
def LOG_LEVEL_ERR : Nat := 1
/-- Modelled from the spec: see `LOG_LEVEL_NONE`. -/
def LOG_LEVEL_WRN : Nat := 2
/-- Modelled from the spec: see `LOG_LEVEL_NONE`. -/
def LOG_LEVEL_INF : Nat := 3
/-- Modelled from the spec: see `LOG_LEVEL_NONE`. -/
def LOG_LEVEL_DBG : Nat := 4

/-- What the file takes from the rest of the logging subsystem and the C library. -/
structure Externals where
  /-- The result of `z_log_get_tag()`; `none` is a null pointer. -/
  tag : Option (List Nat)
  /-- The macro `LOG_FUNCTION_PREFIX_MASK`. -/
  LOG_FUNCTION_PREFIX_MASK : Nat
  /-- The macro `LOG_LEVEL_INTERNAL_RAW_STRING`. -/
  LOG_LEVEL_INTERNAL_RAW_STRING : Nat
  /-- The text `strftime(.., "%FT%T", gmtime(&t))` of newlib for a time `t`. -/
  time_str : Nat → List Nat

/-- Macro `LOG_COLOR_CODE_DEFAULT`. -/
def LOG_COLOR_CODE_DEFAULT : List Nat := str "\x1b[0m"
/-- Macro `LOG_COLOR_CODE_RED`. -/
def LOG_COLOR_CODE_RED : List Nat := str "\x1b[1;31m"
/-- Macro `LOG_COLOR_CODE_GREEN`. -/
def LOG_COLOR_CODE_GREEN : List Nat := str "\x1b[1;32m"
/-- Macro `LOG_COLOR_CODE_YELLOW`. -/
def LOG_COLOR_CODE_YELLOW : List Nat := str "\x1b[1;33m"

/-- Macro `HEXDUMP_BYTES_IN_LINE`. -/
def HEXDUMP_BYTES_IN_LINE : Nat := 16

/-- The table `severity`; `none` is the null entry. -/
def severity : List (Option (List Nat)) :=
  [none, some (str "err"), some (str "wrn"), some (str "inf"), some (str "dbg")]

/-- The table `colors`; `none` is a null entry. -/
def colors (k : Kconfig) : List (Option (List Nat)) :=
  [none, some LOG_COLOR_CODE_RED, some LOG_COLOR_CODE_YELLOW,
   if k.LOG_INFO_COLOR_GREEN then some LOG_COLOR_CODE_GREEN else none, none]

/-- Function `level_to_rfc5424_severity`. -/
def level_to_rfc5424_severity (level : Nat) : Nat :=
  if level = LOG_LEVEL_NONE then 7
  else if level = LOG_LEVEL_ERR then 3
  else if level = LOG_LEVEL_WRN then 4
  else if level = LOG_LEVEL_INF then 6
  else if level = LOG_LEVEL_DBG then 7
  else 7

/-! ## Buffered writer -/

/-- One call of the sink's write function, kept for the proofs: the bytes offered
(`buf[0 .. len)`) and the value returned. -/
structure SinkCall where
  offered : List Nat
  processed : Int
deriving DecidableEq, Repr

/-- The bytes of the offered range the sink reported as accepted. -/
def SinkCall.accepted (c : SinkCall) : List Nat := c.offered.take c.processed.toNat

/-- The structure `log_output` with its control block.  `func` is the sink's write
function, applied to the sink's own state (reached through `ctx`) and the offered bytes;
the member `size` is the length of the backing buffer `buf`.  The last three fields are
history kept for the proofs and are never read by the code: the characters handed to
`out_func`, the calls of `func`, and the number of completed flushes. -/
structure log_output (σ : Type) where
  func : σ → List Nat → Int × σ
  buf : List Nat
  offset : Nat
  ctx : σ
  hostname : Option (List Nat)
  emitted : List Nat
  calls : List SinkCall
  flushes : Nat

/-- The member `size`: `LOG_OUTPUT_DEFINE` sets it to the size of the buffer. -/
def log_output.size {σ : Type} (o : log_output σ) : Nat := o.buf.length

/-- Function `buffer_write`: the `do .. while (len != 0)` loop.  The first argument is
fuel.  A return value below 0 or above `len` moves the pointer out of the buffer
(`none`). -/
def buffer_write {σ : Type} (outf : σ → List Nat → Int × σ) :
    Nat → List Nat → σ → List SinkCall → Option (σ × List SinkCall)
  | 0, _, _, _ => none
  | fuel + 1, buf, ctx, calls =>
    let r := outf ctx buf
    let calls := calls ++ [{ offered := buf, processed := r.1 }]
    if r.1 < 0 ∨ (buf.length : Int) < r.1 then none
    else
      let buf := buf.drop r.1.toNat
      if buf.length ≠ 0 then buffer_write outf fuel buf r.2 calls
      else some (r.2, calls)

/-- Function `log_output_flush`.  A cursor past the end of the buffer would hand the
sink bytes outside it (`none`). -/
def log_output_flush {σ : Type} (fuel : Nat) (o : log_output σ) : Option (log_output σ) :=
  if o.buf.length < o.offset then none
  else
    match buffer_write o.func fuel (o.buf.take o.offset) o.ctx o.calls with
    | none => none
    | some (ctx, calls) =>
      some { o with ctx := ctx, calls := calls, offset := 0, flushes := o.flushes + 1 }

/-- Function `out_func`; `c` is the character, stored as `(uint8_t)c`.  The return
value is always 0 and is left out.  A store at an index outside the buffer is
undefined (`none`); a store inside it leaves `offset <= size`, which is what the
assertion of the source checks. -/
def out_func {σ : Type} (k : Kconfig) (fuel : Nat) (c : Nat) (o : log_output σ) :
    Option (log_output σ) :=
  let o := { o with emitted := o.emitted ++ [c] }
  if k.LOG_MODE_IMMEDIATE then
    let r := o.func o.ctx [c % 256]
    some { o with ctx := r.2, calls := o.calls ++ [{ offered := [c % 256], processed := r.1 }] }
  else
    match (if o.offset = o.size then log_output_flush fuel o else some o) with
    | none => none
    | some o =>
      let idx := o.offset
      if idx < o.buf.length then
        some { o with offset := idx + 1, buf := o.buf.set idx (c % 256) }
      else none

/-- Function `cr_out_func`. -/
def cr_out_func {σ : Type} (k : Kconfig) (fuel : Nat) (c : Nat) (o : log_output σ) :
    Option (log_output σ) :=
  match (if c = 10 then out_func k fuel 13 o else some o) with
  | none => none
  | some o => out_func k fuel c o

/-- Streaming of rendered characters through a callback, as `cbvprintf` and `cbpprintf`
do with every character they produce. -/
def stream {σ : Type} (cb : Nat → log_output σ → Option (log_output σ)) :
    List Nat → log_output σ → Option (log_output σ)
  | [], o => some o
  | c :: cs, o =>
    match cb c o with
    | none => none
    | some o => stream cb cs o

/-- Function `print_formatted`; the argument is the text `cbvprintf` renders from the
format and the arguments, the result carries the returned length. -/
def print_formatted {σ : Type} (k : Kconfig) (fuel : Nat) (o : log_output σ)
    (text : List Nat) : Option (log_output σ × Nat) :=
  match stream (out_func k fuel) text o with
  | none => none
  | some o => some (o, text.length)

/-- A `for (i = lo; i < hi; i++)` loop over a body that can fail; the first argument
is `hi - lo`. -/
def for_loop {S : Type} (body : Nat → S → Option S) : Nat → Nat → S → Option S
  | 0, _, s => some s
  | n + 1, i, s =>
    match body i s with
    | none => none
    | some s => for_loop body n (i + 1) s

/-! ## Timestamp rendering -/

/-- The statement `ms = (remainder * 1000U) / freq` of `timestamp_print`, in
`uint32_t` arithmetic. -/
def subsec_ms (freq remainder : Nat) : Nat := ((remainder * 1000) % 2 ^ 32) / freq

/-- The statement `us = (1000 * (remainder * 1000U - (ms * freq))) / freq` of
`timestamp_print`, in `uint32_t` arithmetic. -/
def subsec_us (freq remainder : Nat) : Nat :=
  ((1000 * (((remainder * 1000) % 2 ^ 32 + 2 ^ 32 -
      (subsec_ms freq remainder * freq) % 2 ^ 32) % 2 ^ 32)) % 2 ^ 32) / freq

/-- Function `timestamp_print`; `timestamp` is a `log_timestamp_t`, the other locals are
`uint32_t` (`total_seconds` has the width of the timestamp). -/
def timestamp_print {σ : Type} (k : Kconfig) (x : Externals) (clock : Clock) (fuel : Nat)
    (o : log_output σ) (flags : Nat) (timestamp : Nat) : Option (log_output σ × Nat) :=
  let w := k.timestamp_bits
  let timestamp := timestamp % 2 ^ w
  let format := flag_set flags LOG_OUTPUT_FLAG_FORMAT_TIMESTAMP ||
    flag_set flags LOG_OUTPUT_FLAG_FORMAT_SYSLOG || k.LOG_OUTPUT_FORMAT_LINUX_TIMESTAMP
  if !format then
    if !k.LOG_TIMESTAMP_64BIT then
      print_formatted k fuel o (str "[" ++ fmt_u0 8 timestamp ++ str "] ")
    else
      print_formatted k fuel o (str "[" ++ fmt_u0 16 timestamp ++ str "] ")
  else if clock.freq ≠ 0 then
    if clock.timestamp_div = 0 then none
    else
      let timestamp := timestamp / clock.timestamp_div
      let total_seconds := timestamp / clock.freq
      let seconds := total_seconds % 2 ^ 32
      let hours := seconds / 3600
      let seconds := (seconds + 2 ^ 32 - (hours * 3600) % 2 ^ 32) % 2 ^ 32
      let mins := seconds / 60
      let seconds := (seconds + 2 ^ 32 - (mins * 60) % 2 ^ 32) % 2 ^ 32
      let remainder := (timestamp % clock.freq) % 2 ^ 32
      let ms := subsec_ms clock.freq remainder
      let us := subsec_us clock.freq remainder
      let frac := (ms * 1000 + us) % 2 ^ 32
      if k.LOG_BACKEND_NET && flag_set flags LOG_OUTPUT_FLAG_FORMAT_SYSLOG then
        if k.NEWLIB_LIBC then
          print_formatted k fuel o (x.time_str total_seconds ++ str "." ++ fmt_u0 6 frac ++
            str "Z ")
        else
          match get_YMD_from_seconds total_seconds with
          | none => none
          | some date =>
            let hours := hours % 24
            print_formatted k fuel o
              (fmt_u0 4 date.year ++ str "-" ++ fmt_u0 2 date.month ++ str "-" ++
               fmt_u0 2 date.day ++ str "T" ++ fmt_u0 2 hours ++ str ":" ++
               fmt_u0 2 mins ++ str ":" ++ fmt_u0 2 seconds ++ str "." ++
               fmt_u0 6 frac ++ str "Z ")
      else
        if k.LOG_OUTPUT_FORMAT_LINUX_TIMESTAMP then
          print_formatted k fuel o
            (str "[" ++ fmt_5ld (to_signed w total_seconds) ++ str "." ++
             fmt_06d (to_signed 32 frac) ++ str "] ")
        else
          print_formatted k fuel o
            (str "[" ++ fmt_u0 2 hours ++ str ":" ++ fmt_u0 2 mins ++ str ":" ++
             fmt_u0 2 seconds ++ str "." ++ fmt_u0 3 ms ++ str "," ++ fmt_u0 3 us ++
             str "] ")
  else
    some (o, 0)

/-! ## Prefix, postfix and hexdump -/

/-- The statement `length += f(..)` on a `uint32_t` accumulator. -/
def add_len {σ : Type} (length : Nat) (r : Option (log_output σ × Nat)) :
    Option (log_output σ × Nat) :=
  r.map fun p => (p.1, (length + p.2) % 2 ^ 32)

/-- The statement `total += f(..)` on the `int` accumulator of `ids_print`. -/
def add_total {σ : Type} (total : Nat) (r : Option (log_output σ × Nat)) :
    Option (log_output σ × Nat) :=
  r.map fun p => (p.1, total + p.2)

/-- A call whose returned length is dropped. -/
def discard {σ : Type} (r : Option (log_output σ × Nat)) : Option (log_output σ) :=
  r.map fun p => p.1

/-- Function `color_print`.  The table `colors` is read only when `start` holds; an
index outside its five entries is undefined (`none`). -/
def color_print {σ : Type} (k : Kconfig) (fuel : Nat) (o : log_output σ)
    (color start : Bool) (level : Nat) : Option (log_output σ) :=
  if color then
    if start then
      match (colors k)[level]? with
      | none => none
      | some entry =>
        let log_color := match entry with
          | some c => c
          | none => LOG_COLOR_CODE_DEFAULT
        discard (print_formatted k fuel o log_color)
    else
      discard (print_formatted k fuel o LOG_COLOR_CODE_DEFAULT)
  else some o

/-- Function `color_prefix`. -/
def color_prefix {σ : Type} (k : Kconfig) (fuel : Nat) (o : log_output σ)
    (color : Bool) (level : Nat) : Option (log_output σ) :=
  color_print k fuel o color true level

/-- Function `color_postfix`. -/
def color_postfix {σ : Type} (k : Kconfig) (fuel : Nat) (o : log_output σ)
    (color : Bool) (level : Nat) : Option (log_output σ) :=
  color_print k fuel o color false level

/-- Function `ids_print`.  Printing a null entry of `severity` with the `s` conversion,
reading the table outside its five entries, and shifting by the width of `int` or more
are undefined (`none`). -/
def ids_print {σ : Type} (k : Kconfig) (x : Externals) (fuel : Nat) (o : log_output σ)
    (level_on func_on : Bool) (domain source : Option (List Nat)) (level : Nat) :
    Option (log_output σ × Nat) :=
  let total := 0
  match (if level_on then
      match severity[level]? with
      | some (some name) =>
        add_total total (print_formatted k fuel o (str "<" ++ name ++ str "> "))
      | _ => none
    else some (o, total)) with
  | none => none
  | some (o, total) =>
    match (match domain with
      | some d => add_total total (print_formatted k fuel o (d ++ str "/"))
      | none => some (o, total)) with
    | none => none
    | some (o, total) =>
      match source with
      | some src =>
        if func_on then
          if 31 ≤ level then none
          else if (1 <<< level) &&& x.LOG_FUNCTION_PREFIX_MASK ≠ 0 then
            add_total total (print_formatted k fuel o (src ++ str "."))
          else
            add_total total (print_formatted k fuel o (src ++ str ": "))
        else
          add_total total (print_formatted k fuel o (src ++ str ": "))
      | none => some (o, total)

/-- Function `newline_print`. -/
def newline_print {σ : Type} (k : Kconfig) (fuel : Nat) (ctx : log_output σ)
    (flags : Nat) : Option (log_output σ) :=
  if k.LOG_BACKEND_NET && flag_set flags LOG_OUTPUT_FLAG_FORMAT_SYSLOG then some ctx
  else if (flags &&& LOG_OUTPUT_FLAG_CRLF_NONE) ≠ 0 then some ctx
  else if (flags &&& LOG_OUTPUT_FLAG_CRLF_LFONLY) ≠ 0 then
    discard (print_formatted k fuel ctx (str "\n"))
  else
    discard (print_formatted k fuel ctx (str "\r\n"))

/-- Body of the first slot loop of `hexdump_line_print`. -/
def hexdump_hex_slot {σ : Type} (k : Kconfig) (fuel : Nat) (data : List Nat)
    (length : Nat) (i : Nat) (o : log_output σ) : Option (log_output σ) :=
  match (if 0 < i ∧ i % 8 = 0 then discard (print_formatted k fuel o (str " "))
         else some o) with
  | none => none
  | some o =>
    if i < length then
      match data[i]? with
      | none => none
      | some b => discard (print_formatted k fuel o (fmt_x02 b ++ str " "))
    else discard (print_formatted k fuel o (str "   "))

/-- Body of the second slot loop of `hexdump_line_print`. -/
def hexdump_ascii_slot {σ : Type} (k : Kconfig) (fuel : Nat) (data : List Nat)
    (length : Nat) (i : Nat) (o : log_output σ) : Option (log_output σ) :=
  match (if 0 < i ∧ i % 8 = 0 then discard (print_formatted k fuel o (str " "))
         else some o) with
  | none => none
  | some o =>
    if i < length then
      match data[i]? with
      | none => none
      | some b =>
        let c := if isprint b then b else 46
        discard (print_formatted k fuel o [c])
    else discard (print_formatted k fuel o (str " "))

/-- Function `hexdump_line_print`; `data` is the span from the pointer on,
`prefix_offset` is an `int`. -/
def hexdump_line_print {σ : Type} (k : Kconfig) (fuel : Nat) (o : log_output σ)
    (data : List Nat) (length : Nat) (prefix_offset : Int) (flags : Nat) :
    Option (log_output σ) :=
  match newline_print k fuel o flags with
  | none => none
  | some o =>
    match for_loop (fun _ o => discard (print_formatted k fuel o (str " ")))
        prefix_offset.toNat 0 o with
    | none => none
    | some o =>
      match for_loop (hexdump_hex_slot k fuel data length) HEXDUMP_BYTES_IN_LINE 0 o with
      | none => none
      | some o =>
        match print_formatted k fuel o (str "|") with
        | none => none
        | some (o, _) =>
          for_loop (hexdump_ascii_slot k fuel data length) HEXDUMP_BYTES_IN_LINE 0 o

/-- The `do .. while (len)` loop of `log_msg_hexdump`; the first argument is fuel. -/
def log_msg_hexdump_loop {σ : Type} (k : Kconfig) (fuel : Nat) (prefix_offset : Int)
    (flags : Nat) : Nat → log_output σ → List Nat → Nat → Option (log_output σ)
  | 0, _, _, _ => none
  | n + 1, o, data, len =>
    let length := min len HEXDUMP_BYTES_IN_LINE
    match hexdump_line_print k fuel o data length prefix_offset flags with
    | none => none
    | some o =>
      let data := data.drop length
      let len := len - length
      if len ≠ 0 then log_msg_hexdump_loop k fuel prefix_offset flags n o data len
      else some o

/-- Function `log_msg_hexdump`; `len` is a `uint32_t`.  Every round but the last
consumes 16 bytes, so `len + 1` rounds of fuel never run out. -/
def log_msg_hexdump {σ : Type} (k : Kconfig) (fuel : Nat) (o : log_output σ)
    (data : List Nat) (len : Nat) (prefix_offset : Int) (flags : Nat) :
    Option (log_output σ) :=
  log_msg_hexdump_loop k fuel prefix_offset flags (len % 2 ^ 32 + 1) o data (len % 2 ^ 32)

/-- The argument `hostname ? hostname : "zephyr"` of the syslog header. -/
def hostname_text {σ : Type} (o : log_output σ) : List Nat :=
  match o.hostname with
  | some h => h
  | none => str "zephyr"

/-- Function `prefix_print`; `level` is a `uint8_t`, the result a `uint32_t`.  The
statements run in the order of the source, each on the output and the length the
previous one left. -/
def prefix_print {σ : Type} (k : Kconfig) (x : Externals) (clock : Clock) (fuel : Nat)
    (o : log_output σ) (flags : Nat) (func_on : Bool) (timestamp : Nat)
    (domain source : Option (List Nat)) (level : Nat) : Option (log_output σ × Nat) :=
  let level := level % 2 ^ 8
  let stamp := flag_set flags LOG_OUTPUT_FLAG_TIMESTAMP
  let colors_on := flag_set flags LOG_OUTPUT_FLAG_COLORS
  let level_on := flag_set flags LOG_OUTPUT_FLAG_LEVEL
  let tag := if k.LOG then x.tag else none
  let syslog := k.LOG_BACKEND_NET && flag_set flags LOG_OUTPUT_FLAG_FORMAT_SYSLOG
  (if syslog then
      add_len 0 (print_formatted k fuel o
        (str "<" ++ fmt_d (16 * 8 + level_to_rfc5424_severity level : Nat) ++ str ">1 "))
    else some (o, 0)).bind fun p =>
  (match tag with
    | some t => add_len p.2 (print_formatted k fuel p.1 (t ++ str " "))
    | none => some p).bind fun p =>
  (if stamp then add_len p.2 (timestamp_print k x clock fuel p.1 flags timestamp)
    else some p).bind fun p =>
  (if syslog then
      add_len p.2 (print_formatted k fuel p.1 (hostname_text p.1 ++ str " - - - - "))
    else ( color_prefix k fuel p.1 colors_on level).map fun o => (o, p.2)).bind fun p =>
  add_len p.2 (ids_print k x fuel p.1 level_on func_on domain source level)

/-- Function `postfix_print`. -/
def postfix_print {σ : Type} (k : Kconfig) (fuel : Nat) (o : log_output σ)
    (flags : Nat) (level : Nat) : Option (log_output σ) :=
  match color_postfix k fuel o (flag_set flags LOG_OUTPUT_FLAG_COLORS) (level % 2 ^ 8) with
  | none => none
  | some o => newline_print k fuel o flags

/-! ## Entry points -/

/-- The pointer `source` of `log_output_process`: null, the marker value 1, or a
string. -/
inductive Source where
  | null
  | one
  | name (s : List Nat)
deriving DecidableEq, Repr

/-- The step `if (data_len) log_msg_hexdump(..)` of `log_output_process`: `data_len` is
a `size_t`, handed on as a `uint32_t`; the `uint32_t` prefix length is handed on as an
`int`. -/
def process_hexdump {σ : Type} (k : Kconfig) (fuel : Nat) (o : log_output σ)
    (data : List Nat) (data_len : Nat) (prefix_offset : Nat) (flags : Nat) :
    Option (log_output σ) :=
  if data_len ≠ 0 then
    log_msg_hexdump k fuel o data data_len (to_signed 32 prefix_offset) flags
  else some o

/-- The pointer `source` of a record with the given source name; a record without one
has a null pointer. -/
def Source.of_name (name : Option (List Nat)) : Source :=
  match name with
  | some s => Source.name s
  | none => Source.null

/-- Function `log_output_process`.  `package` is the text the external `cbpprintf`
renders from the package (`none` is a null pointer), streamed through the callback.
Printing the marker pointer 1 as a string is undefined (`none`). -/
def log_output_process {σ : Type} (k : Kconfig) (x : Externals) (clock : Clock) (fuel : Nat)
    (o : log_output σ) (timestamp : Nat) (domain : Option (List Nat)) (source : Source)
    (level : Nat) (package : Option (List Nat)) (data : List Nat) (data_len : Nat)
    (flags : Nat) : Option (log_output σ) :=
  let level := level % 2 ^ 8
  let raw_string := decide (level = x.LOG_LEVEL_INTERNAL_RAW_STRING)
  match (if !raw_string then
      match source with
      | Source.one => none
      | Source.null =>
        (prefix_print k x clock fuel o flags false timestamp domain none level).map
          fun p => (p.1, p.2, false)
      | Source.name s =>
        (prefix_print k x clock fuel o flags false timestamp domain (some s) level).map
          fun p => (p.1, p.2, false)
    else some (o, 0, decide (source ≠ Source.one))) with
  | none => none
  | some (o, prefix_offset, cr) =>
    match (match package with
      | some text =>
        if cr then stream (cr_out_func k fuel) text o else stream (out_func k fuel) text o
      | none => some o) with
    | none => none
    | some o =>
      match process_hexdump k fuel o data data_len prefix_offset flags with
      | none => none
      | some o =>
        match (if !raw_string then postfix_print k fuel o flags level else some o) with
        | none => none
        | some o => log_output_flush fuel o

/-- The text `newline_print` emits. -/
def newline_text (k : Kconfig) (flags : Nat) : List Nat :=
  if k.LOG_BACKEND_NET && flag_set flags LOG_OUTPUT_FLAG_FORMAT_SYSLOG then []
  else if flag_set flags LOG_OUTPUT_FLAG_CRLF_NONE then []
  else if flag_set flags LOG_OUTPUT_FLAG_CRLF_LFONLY then str "\n"
  else str "\r\n"

/-- The text `color_print` emits: nothing without colours; at the start the colour
mapped for the severity, or the default colour code when none is mapped; at the end
the default colour code. -/
def color_text (k : Kconfig) (color start : Bool) (level : Nat) : List Nat :=
  if color then
    if start then
      match (colors k)[level]? with
      | some (some c) => c
      | _ => LOG_COLOR_CODE_DEFAULT
    else LOG_COLOR_CODE_DEFAULT
  else []

/-- The colour escape `prefix_print` emits through `color_prefix`: none under syslog
framing. -/
def prefix_color_text (k : Kconfig) (flags level : Nat) : List Nat :=
  if k.LOG_BACKEND_NET && flag_set flags LOG_OUTPUT_FLAG_FORMAT_SYSLOG then []
  else color_text k (flag_set flags LOG_OUTPUT_FLAG_COLORS) true (level % 2 ^ 8)

/-- The level tag of the ids block: `"<err> "`, `"<wrn> "`, `"<inf> "` or `"<dbg> "` when
the level is shown, nothing otherwise. -/
def level_tag_text (level_on : Bool) (level : Nat) : List Nat :=
  if level_on then
    match severity[level]? with
    | some (some name) => str "<" ++ name ++ str "> "
    | _ => []
  else []

/-- The domain part of the ids block. -/
def domain_text (domain : Option (List Nat)) : List Nat :=
  match domain with
  | some d => d ++ str "/"
  | none => []

/-- The source part of the ids block, as `ids_print` renders it: the suffix is `"."`
when `func_on` holds and the function-prefix mask has the bit of the level, `": "`
otherwise. -/
def source_text (x : Externals) (func_on : Bool) (source : Option (List Nat))
    (level : Nat) : List Nat :=
  match source with
  | some src =>
    if func_on = true ∧ (1 <<< level) &&& x.LOG_FUNCTION_PREFIX_MASK ≠ 0 then src ++ str "."
    else src ++ str ": "
  | none => []

/-- The text `ids_print` emits. -/
def ids_text (x : Externals) (level_on func_on : Bool) (domain source : Option (List Nat))
    (level : Nat) : List Nat :=
  level_tag_text level_on level ++ domain_text domain ++ source_text x func_on source level

/-- The text `postfix_print` emits. -/
def postfix_text (k : Kconfig) (flags level : Nat) : List Nat :=
  color_text k (flag_set flags LOG_OUTPUT_FLAG_COLORS) false (level % 2 ^ 8) ++
    newline_text k flags

/-- The characters `cr_out_func` hands to `out_func` for a text: a carriage return in
front of every line feed. -/
def cr_expand (text : List Nat) : List Nat :=
  text.flatMap fun c => if c = 10 then [13, 10] else [c]

/-- The characters of the payload of a record: none for a null package. -/
def payload_text (package : Option (List Nat)) : List Nat :=
  match package with
  | some text => text
  | none => []

/-- The extra space in front of slot 8 of a hexdump block. -/
def hexdump_gap (slot : Nat) : List Nat := if 0 < slot ∧ slot % 8 = 0 then [32] else []

/-- Hexdump, in the words of the spec: slot `slot` of the hex block of line `line`
shows byte `16 * line + slot` of the data as two lowercase hex digits and a space, or
three spaces past the end of the data. -/
def hexdump_hex_slot_spec (data : List Nat) (line slot : Nat) : List Nat :=
  match data[16 * line + slot]? with
  | some b => [digit_char (b / 16), digit_char (b % 16), 32]
  | none => [32, 32, 32]

/-- Hexdump, in the words of the spec: slot `slot` of the ASCII block of line `line`
shows byte `16 * line + slot` verbatim when it is printable, as `.` otherwise, or a
space past the end of the data. -/
def hexdump_ascii_slot_spec (data : List Nat) (line slot : Nat) : List Nat :=
  match data[16 * line + slot]? with
  | some b => [if 32 ≤ b ∧ b ≤ 126 then b else 46]
  | none => [32]

/-- Hexdump, in the words of the spec: one line is the newline, the margin of spaces,
16 hex slots, a bar and 16 ASCII slots, with a gap after every 8th slot. -/
def hexdump_line_spec (data nl : List Nat) (margin line : Nat) : List Nat :=
  nl ++ List.replicate margin 32 ++
    (List.range 16).flatMap (fun i => hexdump_gap i ++ hexdump_hex_slot_spec data line i) ++
    [124] ++
    (List.range 16).flatMap (fun i => hexdump_gap i ++ hexdump_ascii_slot_spec data line i)

/-- Hexdump, in the words of the spec: `ceil(L / 16)` lines for `L` bytes. -/
def hexdump_lines_spec (data nl : List Nat) (margin : Nat) : List (List Nat) :=
  (List.range ((data.length + 15) / 16)).map (hexdump_line_spec data nl margin)

/-! ## Conditions on the sink and the writer -/

/-- The write contract of a sink: an empty request accepts nothing, any other request
accepts at least one byte and at most the bytes offered. -/
def sink_accepts {σ : Type} (func : σ → List Nat → Int × σ) : Prop :=
  ∀ ctx bytes, (bytes = [] → (func ctx bytes).1 = 0) ∧
    (bytes ≠ [] → 1 ≤ (func ctx bytes).1 ∧ (func ctx bytes).1 ≤ bytes.length)

/-- The bytes a list of sink calls accepted, in order. -/
def accepted_bytes (calls : List SinkCall) : List Nat :=
  (calls.map SinkCall.accepted).flatten

/-- The writer can take a character: in immediate mode always; in buffered mode when
the buffer has room for one byte at least, the cursor is within the buffer, the sink
keeps its contract and the fuel covers a flush of the whole buffer. -/
def writer_ok {σ : Type} (k : Kconfig) (fuel : Nat) (o : log_output σ) : Prop :=
  k.LOG_MODE_IMMEDIATE = true ∨
    (sink_accepts o.func ∧ 1 ≤ o.buf.length ∧ o.offset ≤ o.buf.length ∧ o.buf.length ≤ fuel)

/-- State `o2` follows `o1` by handing the characters `text` to `out_func`, and the
writer can go on; in immediate mode the cursor is left alone. -/
def writer_step {σ : Type} (k : Kconfig) (fuel : Nat) (o1 o2 : log_output σ)
    (text : List Nat) : Prop :=
  writer_ok k fuel o2 ∧ o2.emitted = o1.emitted ++ text ∧ o2.hostname = o1.hostname ∧
    o2.func = o1.func ∧ o2.buf.length = o1.buf.length ∧
    (k.LOG_MODE_IMMEDIATE = true → o2.offset = o1.offset)

/-- The condition under which `log_output_process` runs to its end: the writer can take
characters, and the final flush finds a sink that keeps its contract, the cursor within
the buffer and fuel for the buffered bytes. -/
def process_ok {σ : Type} (k : Kconfig) (fuel : Nat) (o : log_output σ) : Prop :=
  writer_ok k fuel o ∧ sink_accepts o.func ∧ o.offset ≤ o.buf.length ∧ 1 ≤ fuel ∧
    o.offset ≤ fuel

/-! ## Concrete sinks and configurations for the examples -/

/-- A sink that accepts every byte offered; its state is the bytes received so far. -/
def full_sink : List Nat → List Nat → Int × List Nat :=
  fun received bytes => (bytes.length, received ++ bytes)

/-- A sink that accepts one byte of every non-empty request. -/
def byte_sink : List Nat → List Nat → Int × List Nat :=
  fun received bytes => (min bytes.length 1, received ++ bytes.take 1)

/-- An output with a zeroed buffer of the given capacity, cursor 0, no hostname, on the
given sink. -/
def fresh_output (func : List Nat → List Nat → Int × List Nat) (capacity : Nat) :
    log_output (List Nat) :=
  { func := func, buf := List.replicate capacity 0, offset := 0, ctx := [],
    hostname := none, emitted := [], calls := [], flushes := 0 }

/-- Buffered mode, 32-bit timestamps, network backend without newlib, no colours in
the drop notice. -/
def kconfig_net : Kconfig :=
  { LOG_MODE_IMMEDIATE := false, LOG_TIMESTAMP_64BIT := false, LOG_BACKEND_NET := true,
    NEWLIB_LIBC := false, LOG_OUTPUT_FORMAT_LINUX_TIMESTAMP := false,
    LOG_INFO_COLOR_GREEN := false, LOG_BACKEND_SHOW_COLOR := false, LOG := true }

/-- Buffered mode, 32-bit timestamps, no network backend. -/
def kconfig_plain : Kconfig :=
  { LOG_MODE_IMMEDIATE := false, LOG_TIMESTAMP_64BIT := false, LOG_BACKEND_NET := false,
    NEWLIB_LIBC := false, LOG_OUTPUT_FORMAT_LINUX_TIMESTAMP := false,
    LOG_INFO_COLOR_GREEN := false, LOG_BACKEND_SHOW_COLOR := false, LOG := true }

/-- No tag, the function prefix configured for every severity, raw strings marked by
severity 0, no newlib. -/
def externals_func_prefix : Externals :=
  { tag := none, LOG_FUNCTION_PREFIX_MASK := 30, LOG_LEVEL_INTERNAL_RAW_STRING := 0,
    time_str := fun _ => [] }

/-- No tag, no function prefix, raw strings marked by severity 0, no newlib. -/
def externals_plain : Externals :=
  { tag := none, LOG_FUNCTION_PREFIX_MASK := 0, LOG_LEVEL_INTERNAL_RAW_STRING := 0,
    time_str := fun _ => [] }

/-! # Theorems -/

/-! ## Clock configuration: proofs -/

theorem timestamp_bits_ge (k : Kconfig) : 32 ≤ k.timestamp_bits := by
  unfold Kconfig.timestamp_bits; split <;> omega

theorem freq_set_loop_spec (w : Nat) (hw : 32 ≤ w) (f : Nat) :
    ∀ (fuel m j : Nat), f / 2 ^ j < 2 ^ m → m < fuel → j + m ≤ 32 → j ≤ 13 →
      ∃ n, freq_set_loop w fuel (f / 2 ^ j) (2 ^ j) = some (f / 2 ^ n, 2 ^ n) ∧
        f / 2 ^ n ≤ 1000000 ∧ n ≤ 13 := by
  intro fuel
  induction fuel with
  | zero => intro m j _ h; omega
  | succ fuel ih =>
    intro m j hlt hm hj hj13
    unfold freq_set_loop
    by_cases hbig : f / 2 ^ j > 1000000
    · rw [if_pos hbig]
      have hm20 : 20 ≤ m := by
        by_contra hcon
        have : (2 : Nat) ^ m ≤ 2 ^ 19 := Nat.pow_le_pow_right (by norm_num) (by omega)
        have h19 : (2 : Nat) ^ 19 = 524288 := by norm_num
        omega
      have hdiv : f / 2 ^ j / 2 = f / 2 ^ (j + 1) := by
        rw [Nat.div_div_eq_div_mul, pow_succ]
      have hlt2 : (2 : Nat) ^ (j + 1) < 2 ^ w :=
        Nat.pow_lt_pow_right (by norm_num) (by omega)
      have hmul : (2 ^ j * 2) % 2 ^ w = 2 ^ (j + 1) := by
        rw [← pow_succ]; exact Nat.mod_eq_of_lt hlt2
      rw [hdiv, hmul]
      apply ih (m - 1) (j + 1)
      · rw [← hdiv]
        have : (2 : Nat) ^ m = 2 ^ (m - 1) * 2 := by
          rw [← pow_succ]; congr 1; omega
        omega
      · omega
      · omega
      · omega
    · rw [if_neg hbig]
      refine ⟨j, rfl, by omega, ?_⟩
      omega

theorem freq_set_some (k : Kconfig) (f : Nat) :
    ∃ n, log_output_timestamp_freq_set k f =
        some { freq := f % 2 ^ 32 / 2 ^ n, timestamp_div := 2 ^ n } ∧
      f % 2 ^ 32 / 2 ^ n ≤ 1000000 ∧ n ≤ 13 := by
  have hlt : f % 2 ^ 32 / 2 ^ 0 < 2 ^ 32 := by
    simpa using Nat.mod_lt f (by norm_num : 0 < 2 ^ 32)
  obtain ⟨n, hn, hle, h13⟩ :=
    freq_set_loop_spec k.timestamp_bits (timestamp_bits_ge k) (f % 2 ^ 32) 33 32 0 hlt
      (by omega) (by omega) (by omega)
  refine ⟨n, ?_, hle, h13⟩
  unfold log_output_timestamp_freq_set
  simp only [pow_zero, Nat.div_one] at hn
  rw [hn]; rfl

theorem to_us_exact (c : Clock) (hd : c.timestamp_div ≠ 0) (hf : c.freq ≠ 0)
    (t : Nat) (ht : t < 2 ^ 32) :
    log_output_timestamp_to_us c t = some (t / c.timestamp_div * 1000000 / c.freq) := by
  unfold log_output_timestamp_to_us
  rw [if_neg hd]
  simp only [if_neg hf]
  have h1 : t % 2 ^ 32 = t := Nat.mod_eq_of_lt ht
  have h2 : t / c.timestamp_div ≤ t := Nat.div_le_self _ _
  have h3 : t / c.timestamp_div % 2 ^ 32 = t / c.timestamp_div :=
    Nat.mod_eq_of_lt (by omega)
  have h4 : t / c.timestamp_div * 1000000 % 2 ^ 64 = t / c.timestamp_div * 1000000 :=
    Nat.mod_eq_of_lt (by norm_num at ht ⊢; omega)
  rw [h1, h3, h4]

theorem configured_div_ne_zero (k : Kconfig) (f : Nat) (c : Clock)
    (hc : log_output_timestamp_freq_set k f = some c) : c.timestamp_div ≠ 0 := by
  obtain ⟨n, hn, _, _⟩ := freq_set_some k f
  rw [hn] at hc
  cases hc
  exact pow_ne_zero n (by norm_num)

/-! ## Calendar algorithm: proofs -/

theorem is_leap_year_iff (y : Nat) : is_leap_year y = true ↔ gregorian_leap y := by
  simp [is_leap_year, gregorian_leap]

theorem div_pred_step (d y : Nat) (hy : 1 ≤ y) :
    y / d = (y - 1) / d + if y % d = 0 then 1 else 0 := by
  obtain ⟨n, rfl⟩ : ∃ n, y = n + 1 := ⟨y - 1, by omega⟩
  rw [Nat.succ_div]
  simp [Nat.dvd_iff_mod_eq_zero]

theorem mod_400_100 (y : Nat) (h : y % 400 = 0) : y % 100 = 0 := by omega
theorem mod_100_4 (y : Nat) (h : y % 100 = 0) : y % 4 = 0 := by omega

theorem leap_years_before_succ (y : Nat) (hy : 1 ≤ y) :
    leap_years_before (y + 1) = leap_years_before y + if gregorian_leap y then 1 else 0 := by
  unfold leap_years_before gregorian_leap
  have h4 := div_pred_step 4 y hy
  have h100 := div_pred_step 100 y hy
  have h400 := div_pred_step 400 y hy
  have hle : (y - 1) / 100 ≤ (y - 1) / 4 := Nat.div_le_div_left (by norm_num) (by norm_num)
  have ha := mod_400_100 y
  have hb := mod_100_4 y
  simp only [Nat.add_sub_cancel]
  rw [h4, h100, h400]
  generalize (y - 1) / 4 = a at *
  generalize (y - 1) / 100 = b at *
  generalize (y - 1) / 400 = c at *
  by_cases c4 : y % 4 = 0 <;> by_cases c100 : y % 100 = 0 <;> by_cases c400 : y % 400 = 0 <;>
    simp [c4, c100, c400] at ha hb ⊢ <;> omega
theorem leap_years_before_mono {a b : Nat} (ha : 1 ≤ a) (hab : a ≤ b) :
    leap_years_before a ≤ leap_years_before b := by
  induction b, hab using Nat.le_induction with
  | base => exact le_rfl
  | succ n hn ih =>
    rw [leap_years_before_succ n (by omega)]; omega

theorem days_before_year_succ (y : Nat) (hy : 1970 ≤ y) :
    days_before_year (y + 1) = days_before_year y + gregorian_year_days y := by
  have h1 := leap_years_before_succ y (by omega)
  have h2 := leap_years_before_mono (a := 1970) (b := y) (by omega) hy
  unfold days_before_year gregorian_year_days
  rw [h1]
  generalize leap_years_before y = p at *
  generalize leap_years_before 1970 = q at *
  split_ifs <;> omega

theorem days_before_year_mono {a b : Nat} (ha : 1970 ≤ a) (hab : a ≤ b) :
    days_before_year a ≤ days_before_year b := by
  induction b, hab using Nat.le_induction with
  | base => exact le_rfl
  | succ n hn ih =>
    rw [days_before_year_succ n (by omega)]; omega
theorem year_tmp_eq (y : Nat) :
    (if is_leap_year y then (366 * SECONDS_IN_DAY) % 2 ^ 32
      else (365 * SECONDS_IN_DAY) % 2 ^ 32) = gregorian_year_days y * 86400 := by
  unfold gregorian_year_days SECONDS_IN_DAY
  by_cases h : gregorian_leap y
  · rw [if_pos ((is_leap_year_iff y).2 h), if_pos h]; norm_num
  · have h' : ¬ (is_leap_year y = true) := fun hc => h ((is_leap_year_iff y).1 hc)
    rw [if_neg h', if_neg h]; norm_num

theorem year_loop_spec (S : Nat) (hS : S / 86400 < days_before_year (2 ^ 32)) :
    ∀ fuel y s, 1970 ≤ y → y < 2 ^ 32 → days_before_year y * 86400 + s = S → s < fuel →
      ∃ y' s', year_loop fuel y s = some (y', s') ∧ 1970 ≤ y' ∧ y' < 2 ^ 32 ∧
        days_before_year y' * 86400 + s' = S ∧ s' < gregorian_year_days y' * 86400 := by
  intro fuel
  induction fuel with
  | zero => intro y s _ _ _ h; omega
  | succ fuel ih =>
    intro y s hy hy32 hinv hfuel
    unfold year_loop
    simp only [year_tmp_eq]
    by_cases hgt : gregorian_year_days y * 86400 > s
    · rw [if_pos hgt]
      exact ⟨y, s, rfl, hy, hy32, hinv, hgt⟩
    · rw [if_neg hgt]
      have hpos : 365 ≤ gregorian_year_days y := by
        unfold gregorian_year_days; split <;> omega
      have hsucc := days_before_year_succ y hy
      have hstep : days_before_year (y + 1) * 86400 + (s - gregorian_year_days y * 86400) = S := by
        rw [hsucc, Nat.add_mul]; omega
      have hlt : y + 1 < 2 ^ 32 := by
        by_contra hcon
        have hmono := days_before_year_mono (a := 2 ^ 32) (b := y + 1) (by norm_num) (by omega)
        have h1 : days_before_year (y + 1) * 86400 ≤ S := by omega
        have h2 : days_before_year (y + 1) ≤ S / 86400 := by
          rw [Nat.le_div_iff_mul_le (by norm_num)]; exact h1
        omega
      rw [Nat.mod_eq_of_lt hlt]
      exact ih (y + 1) (s - gregorian_year_days y * 86400) (by omega) hlt hstep (by omega)
theorem days_before_month_succ (y m : Nat) (hm : 1 ≤ m) :
    days_before_month y (m + 1) = days_before_month y m + gregorian_month_days y m := by
  obtain ⟨i, rfl⟩ : ∃ i, m = i + 1 := ⟨m - 1, by omega⟩
  simp [days_before_month, List.range_succ]

theorem days_before_month_one (y : Nat) : days_before_month y 1 = 0 := by
  simp [days_before_month]

theorem days_before_month_13 (y : Nat) : days_before_month y 13 = gregorian_year_days y := by
  simp only [days_before_month, gregorian_year_days]
  by_cases h : gregorian_leap y <;> simp [List.range_succ, gregorian_month_days, h]

theorem month_tmp_eq (y i : Nat) (hi : i < 12) :
    ∃ d, days_in_month[i]? = some d ∧
      (if (i == 1 && is_leap_year y) = true then ((d + 1) * SECONDS_IN_DAY) % 2 ^ 32
        else (d * SECONDS_IN_DAY) % 2 ^ 32) = gregorian_month_days y (i + 1) * 86400 := by
  by_cases h : gregorian_leap y
  · have h' := (is_leap_year_iff y).2 h
    interval_cases i <;> refine ⟨_, rfl, ?_⟩ <;>
      simp only [gregorian_month_days, SECONDS_IN_DAY, h, h'] <;> norm_num <;> rfl
  · have h' : is_leap_year y = false := by
      cases hb : is_leap_year y
      · rfl
      · exact absurd ((is_leap_year_iff y).1 hb) h
    interval_cases i <;> refine ⟨_, rfl, ?_⟩ <;>
      simp only [gregorian_month_days, SECONDS_IN_DAY, h, h'] <;> norm_num <;> rfl

theorem month_loop_spec (y : Nat) :
    ∀ n i s, i ≤ 12 → 12 ≤ i + n →
      days_before_month y (i + 1) * 86400 + s < days_before_month y 13 * 86400 →
      ∃ j s', month_loop y n i s = some (j, s') ∧ i ≤ j ∧ j ≤ 11 ∧
        s' < gregorian_month_days y (j + 1) * 86400 ∧
        days_before_month y (i + 1) * 86400 + s = days_before_month y (j + 1) * 86400 + s' := by
  intro n
  induction n with
  | zero =>
    intro i s hi hn hlt
    have : i = 12 := by omega
    subst this
    have e : (12 : Nat) + 1 = 13 := rfl
    rw [e] at hlt
    omega
  | succ n ih =>
    intro i s hi hn hlt
    have hi11 : i < 12 := by
      by_contra hcon
      have : i = 12 := by omega
      subst this
      have e : (12 : Nat) + 1 = 13 := rfl
      rw [e] at hlt
      omega
    obtain ⟨d, hd, htmp⟩ := month_tmp_eq y i hi11
    unfold month_loop
    simp only [hd, htmp]
    by_cases hgt : gregorian_month_days y (i + 1) * 86400 > s
    · rw [if_pos hgt]
      exact ⟨i, s, rfl, le_rfl, by omega, hgt, rfl⟩
    · rw [if_neg hgt]
      have hsucc := days_before_month_succ y (i + 1) (by omega)
      have hstep : days_before_month y (i + 1 + 1) * 86400 +
          (s - gregorian_month_days y (i + 1) * 86400) =
          days_before_month y (i + 1) * 86400 + s := by
        rw [hsucc, Nat.add_mul]; omega
      obtain ⟨j, s', h1, h2, h3, h4, h5⟩ :=
        ih (i + 1) (s - gregorian_month_days y (i + 1) * 86400) (by omega) (by omega)
          (by omega)
      exact ⟨j, s', h1, by omega, h3, h4, by omega⟩

theorem gregorian_month_days_le (y m : Nat) : gregorian_month_days y m ≤ 31 := by
  unfold gregorian_month_days
  split <;> try omega
  split <;> omega

theorem get_YMD_correct (seconds : Nat)
    (hS : seconds / 86400 < days_before_year (2 ^ 32)) (h64 : seconds < 2 ^ 64) :
    ∃ r, get_YMD_from_seconds seconds = some r ∧
      gregorian_date r.year r.month r.day ∧
      days_from_epoch r.year r.month r.day = seconds / 86400 := by
  have h0 : days_before_year 1970 = 0 := by simp [days_before_year]
  obtain ⟨y, s, hy1, hy2, hy3, hy4, hy5⟩ :=
    year_loop_spec seconds hS (seconds + 1) 1970 seconds (by omega) (by norm_num)
      (by rw [h0]; omega) (by omega)
  obtain ⟨j, s', hm1, _, hm3, hm4, hm5⟩ :=
    month_loop_spec y 48 0 s (by omega) (by omega)
      (by rw [days_before_month_one, days_before_month_13]; omega)
  rw [days_before_month_one] at hm5
  have hle := gregorian_month_days_le y (j + 1)
  have hday : s' / 86400 < gregorian_month_days y (j + 1) := by
    rw [Nat.div_lt_iff_lt_mul (by norm_num)]; exact hm4
  have hdiv : seconds / 86400 =
      days_before_year y + days_before_month y (j + 1) + s' / 86400 := by
    have : seconds = s' + 86400 * (days_before_year y + days_before_month y (j + 1)) := by
      omega
    rw [this, Nat.add_mul_div_left _ _ (by norm_num : 0 < 86400)]; omega
  refine ⟨⟨y, j + 1, 1 + s' / 86400⟩, ?_, ?_, ?_⟩
  · unfold get_YMD_from_seconds
    rw [Nat.mod_eq_of_lt h64]
    simp only [hy1, hm1, SECONDS_IN_DAY]
    have e1 : (1 + j) % 2 ^ 32 = j + 1 := by
      rw [Nat.mod_eq_of_lt (by norm_num; omega)]; omega
    have e2 : (1 + s' / 86400) % 2 ^ 32 = 1 + s' / 86400 :=
      Nat.mod_eq_of_lt (by norm_num; omega)
    rw [e1, e2]
  · show gregorian_date y (j + 1) (1 + s' / 86400)
    exact ⟨hy2, by omega, by omega, by omega, by omega⟩
  · show days_from_epoch y (j + 1) (1 + s' / 86400) = seconds / 86400
    simp only [days_from_epoch]
    omega
theorem year_loop_year_lt :
    ∀ fuel y s y' s', y < 2 ^ 32 → year_loop fuel y s = some (y', s') → y' < 2 ^ 32 := by
  intro fuel
  induction fuel with
  | zero => intro y s y' s' _ h; simp [year_loop] at h
  | succ fuel ih =>
    intro y s y' s' hy h
    unfold year_loop at h
    simp only at h
    split_ifs at h
    all_goals first
      | (cases h; exact hy)
      | exact ih _ _ _ _ (Nat.mod_lt _ (by norm_num)) h

theorem get_YMD_fields_lt (seconds : Nat) (r : YMD_date)
    (h : get_YMD_from_seconds seconds = some r) :
    r.year < 2 ^ 32 ∧ r.month < 2 ^ 32 ∧ r.day < 2 ^ 32 := by
  unfold get_YMD_from_seconds at h
  split at h
  · cases h
  · rename_i y s hy
    split at h
    · cases h
    · cases h
      exact ⟨year_loop_year_lt _ _ _ _ _ (by norm_num) hy,
        Nat.mod_lt _ (by norm_num), Nat.mod_lt _ (by norm_num)⟩

theorem days_before_year_le (y : Nat) : days_before_year y ≤ 366 * y := by
  unfold days_before_year leap_years_before
  have h4 := Nat.div_mul_le_self (y - 1) 4
  have h400 := Nat.div_mul_le_self (y - 1) 400
  generalize (y - 1) / 4 = a at *
  generalize (y - 1) / 100 = b at *
  generalize (y - 1) / 400 = c at *
  generalize (1970 - 1) / 4 - (1970 - 1) / 100 + (1970 - 1) / 400 = e
  omega

theorem days_before_month_le (y m : Nat) : days_before_month y m ≤ 31 * m := by
  unfold days_before_month
  have h := List.sum_le_card_nsmul
    ((List.range (m - 1)).map fun j => gregorian_month_days y (j + 1)) 31
    (by
      intro x hx
      simp only [List.mem_map] at hx
      obtain ⟨j, _, rfl⟩ := hx
      exact gregorian_month_days_le y (j + 1))
  simp only [List.length_map, List.length_range, smul_eq_mul] at h
  have : (m - 1) * 31 ≤ 31 * m := by omega
  omega

theorem days_before_year_bound : days_before_year (2 ^ 32) * 86400 < 2 ^ 64 := by
  norm_num [days_before_year, leap_years_before]

theorem days_before_year_2_32 : days_before_year (2 ^ 32) = 1568703873082 := by
  norm_num [days_before_year, leap_years_before]

/-! ## Buffered writer: proofs -/

theorem buffer_write_ok {σ : Type} (outf : σ → List Nat → Int × σ) (h : sink_accepts outf) :
    ∀ (fuel : Nat) (bytes : List Nat) (ctx : σ) (calls : List SinkCall),
      1 ≤ fuel → bytes.length ≤ fuel →
      ∃ ctx' new, buffer_write outf fuel bytes ctx calls = some (ctx', calls ++ new) ∧
        accepted_bytes new = bytes ∧ new ≠ [] ∧
        (∀ c ∈ new, c.offered.length ≤ bytes.length) ∧
        (bytes ≠ [] → ∀ c ∈ new, c.offered ≠ []) := by
  intro fuel
  induction fuel with
  | zero => intro _ _ _ h1; omega
  | succ fuel ih =>
    intro bytes ctx calls _ hlen
    unfold buffer_write
    obtain ⟨hempty, hne⟩ := h ctx bytes
    by_cases hb : bytes = []
    · subst hb
      have h0 := hempty rfl
      simp only [h0]
      refine ⟨(outf ctx []).2, [{ offered := [], processed := 0 }], ?_, ?_, ?_, ?_, ?_⟩
      · simp
      · simp [accepted_bytes, SinkCall.accepted]
      · simp
      · simp
      · intro hc; exact absurd rfl hc
    · obtain ⟨hlo, hhi⟩ := hne hb
      have hnot : ¬ ((outf ctx bytes).1 < 0 ∨ (bytes.length : Int) < (outf ctx bytes).1) := by
        omega
      simp only [if_neg hnot]
      set p := (outf ctx bytes).1 with hp
      have hpn : (p.toNat : Int) = p := Int.toNat_of_nonneg (by omega)
      have hp1 : 1 ≤ p.toNat := by omega
      have hp2 : p.toNat ≤ bytes.length := by omega
      by_cases hrest : (List.drop p.toNat bytes).length ≠ 0
      · rw [if_pos hrest]
        have hl : (List.drop p.toNat bytes).length = bytes.length - p.toNat :=
          List.length_drop _ _
        obtain ⟨ctx', new, hrun, hacc, _, hoff, hnon⟩ :=
          ih (List.drop p.toNat bytes) (outf ctx bytes).2
            (calls ++ [{ offered := bytes, processed := p }]) (by omega) (by omega)
        refine ⟨ctx', { offered := bytes, processed := p } :: new, ?_, ?_, ?_, ?_, ?_⟩
        · rw [hrun]; simp
        · have : accepted_bytes ({ offered := bytes, processed := p } :: new) =
              List.take p.toNat bytes ++ accepted_bytes new := by
            simp [accepted_bytes, SinkCall.accepted]
          rw [this, hacc, List.take_append_drop]
        · simp
        · intro c hc
          rcases List.mem_cons.1 hc with rfl | hc
          · exact le_rfl
          · have := hoff c hc; omega
        · intro _ c hc
          rcases List.mem_cons.1 hc with rfl | hc
          · exact hb
          · exact hnon (fun hnil => hrest (by rw [hnil]; rfl)) c hc
      · rw [if_neg hrest]
        have hl : (List.drop p.toNat bytes).length = bytes.length - p.toNat :=
          List.length_drop _ _
        have hall : p.toNat = bytes.length := by
          have : (List.drop p.toNat bytes).length = 0 := by
            by_contra hcon; exact hrest hcon
          omega
        refine ⟨(outf ctx bytes).2, [{ offered := bytes, processed := p }], rfl, ?_, ?_, ?_, ?_⟩
        · simp [accepted_bytes, SinkCall.accepted, hall]
        · simp
        · simp
        · intro _ c hc
          rcases List.mem_singleton.1 hc with rfl
          exact hb

theorem log_output_flush_ok {σ : Type} (fuel : Nat) (o : log_output σ)
    (hs : sink_accepts o.func) (hoff : o.offset ≤ o.buf.length) (h1 : 1 ≤ fuel)
    (hf : o.offset ≤ fuel) :
    ∃ ctx' new, log_output_flush fuel o =
        some { o with ctx := ctx', calls := o.calls ++ new, offset := 0,
                      flushes := o.flushes + 1 } ∧
      accepted_bytes new = o.buf.take o.offset ∧ new ≠ [] ∧
      (∀ c ∈ new, c.offered.length ≤ o.offset) := by
  have hlen : (o.buf.take o.offset).length = o.offset := by
    rw [List.length_take]; omega
  obtain ⟨ctx', new, hrun, hacc, hne, hle, _⟩ :=
    buffer_write_ok o.func hs fuel (o.buf.take o.offset) o.ctx o.calls h1 (by omega)
  refine ⟨ctx', new, ?_, hacc, hne, ?_⟩
  · unfold log_output_flush
    rw [if_neg (by omega), hrun]
  · intro c hc
    have := hle c hc
    omega

theorem out_func_immediate {σ : Type} (k : Kconfig) (fuel c : Nat) (o : log_output σ)
    (hk : k.LOG_MODE_IMMEDIATE = true) :
    out_func k fuel c o =
      some { o with emitted := o.emitted ++ [c], ctx := (o.func o.ctx [c % 256]).2,
                    calls := o.calls ++
                      [{ offered := [c % 256], processed := (o.func o.ctx [c % 256]).1 }] } := by
  unfold out_func
  simp [hk]

theorem out_func_room {σ : Type} (k : Kconfig) (fuel c : Nat) (o : log_output σ)
    (hk : k.LOG_MODE_IMMEDIATE = false) (hroom : o.offset < o.buf.length) :
    out_func k fuel c o =
      some { o with emitted := o.emitted ++ [c], offset := o.offset + 1,
                    buf := o.buf.set o.offset (c % 256) } := by
  unfold out_func
  have hne : o.offset ≠ o.buf.length := by omega
  simp [hk, log_output.size, hne, hroom]

theorem out_func_full {σ : Type} (k : Kconfig) (fuel c : Nat) (o : log_output σ)
    (hk : k.LOG_MODE_IMMEDIATE = false) (hs : sink_accepts o.func)
    (hfull : o.offset = o.buf.length) (hcap : 1 ≤ o.buf.length) (hf : o.buf.length ≤ fuel) :
    ∃ ctx' new, out_func k fuel c o =
        some { o with emitted := o.emitted ++ [c], ctx := ctx', calls := o.calls ++ new,
                      offset := 1, flushes := o.flushes + 1,
                      buf := o.buf.set 0 (c % 256) } ∧
      accepted_bytes new = o.buf ∧ new ≠ [] ∧
      (∀ x ∈ new, x.offered.length ≤ o.buf.length) := by
  obtain ⟨ctx', new, hrun, hacc, hne, hle⟩ :=
    log_output_flush_ok fuel { o with emitted := o.emitted ++ [c] } hs
      (by simp [hfull]) (by omega) (by simp [hfull]; omega)
  refine ⟨ctx', new, ?_, ?_, hne, ?_⟩
  · unfold out_func
    simp only [hk, log_output.size, hfull]
    simp only [hfull] at hrun
    simp [hrun]
    intro hnil
    rw [hnil] at hcap
    simp at hcap
  · simpa [hfull] using hacc
  · intro x hx
    have := hle x hx
    simpa [hfull] using this

theorem out_func_step {σ : Type} (k : Kconfig) (fuel c : Nat) (o : log_output σ)
    (h : writer_ok k fuel o) :
    ∃ o', out_func k fuel c o = some o' ∧ writer_step k fuel o o' [c] := by
  cases hk : k.LOG_MODE_IMMEDIATE with
  | true =>
    exact ⟨_, out_func_immediate k fuel c o hk, Or.inl hk, rfl, rfl, rfl, rfl, fun _ => rfl⟩
  | false =>
    rcases h with h | ⟨hs, hcap, hoff, hf⟩
    · rw [hk] at h; cases h
    · by_cases hfull : o.offset = o.buf.length
      · obtain ⟨ctx', new, hrun, _, _, _⟩ := out_func_full k fuel c o hk hs hfull hcap hf
        refine ⟨_, hrun, Or.inr ⟨hs, ?_, ?_, ?_⟩, rfl, rfl, rfl, ?_, ?_⟩
        · simpa using hcap
        · simpa using hcap
        · simpa using hf
        · simp
        · intro hi; rw [hk] at hi; cases hi
      · have hroom : o.offset < o.buf.length := by omega
        refine ⟨_, out_func_room k fuel c o hk hroom, Or.inr ⟨hs, ?_, ?_, ?_⟩, rfl, rfl, rfl,
          ?_, ?_⟩
        · simpa using hcap
        · simpa using hroom
        · simpa using hf
        · simp
        · intro hi; rw [hk] at hi; cases hi

theorem writer_step_refl {σ : Type} (k : Kconfig) (fuel : Nat) (o : log_output σ)
    (h : writer_ok k fuel o) : writer_step k fuel o o [] :=
  ⟨h, by simp, rfl, rfl, rfl, fun _ => rfl⟩

theorem writer_step_trans {σ : Type} {k : Kconfig} {fuel : Nat} {o1 o2 o3 : log_output σ}
    {s t : List Nat} (h12 : writer_step k fuel o1 o2 s) (h23 : writer_step k fuel o2 o3 t) :
    writer_step k fuel o1 o3 (s ++ t) := by
  obtain ⟨_, e1, h1, f1, b1, c1⟩ := h12
  obtain ⟨ok3, e2, h2, f2, b2, c2⟩ := h23
  exact ⟨ok3, by rw [e2, e1, List.append_assoc], h2.trans h1, f2.trans f1, b2.trans b1,
    fun hi => (c2 hi).trans (c1 hi)⟩

theorem stream_out_func_step {σ : Type} (k : Kconfig) (fuel : Nat) :
    ∀ (text : List Nat) (o : log_output σ), writer_ok k fuel o →
      ∃ o', stream (out_func k fuel) text o = some o' ∧ writer_step k fuel o o' text := by
  intro text
  induction text with
  | nil => intro o h; exact ⟨o, rfl, writer_step_refl k fuel o h⟩
  | cons c cs ih =>
    intro o h
    obtain ⟨o1, h1, s1⟩ := out_func_step k fuel c o h
    obtain ⟨o2, h2, s2⟩ := ih o1 s1.1
    refine ⟨o2, ?_, by simpa using writer_step_trans s1 s2⟩
    simp only [stream, h1, h2]

theorem print_formatted_step {σ : Type} (k : Kconfig) (fuel : Nat) (o : log_output σ)
    (text : List Nat) (h : writer_ok k fuel o) :
    ∃ o', print_formatted k fuel o text = some (o', text.length) ∧
      writer_step k fuel o o' text := by
  obtain ⟨o', h1, s1⟩ := stream_out_func_step k fuel text o h
  exact ⟨o', by simp only [print_formatted, h1], s1⟩

theorem discard_print_step {σ : Type} (k : Kconfig) (fuel : Nat) (o : log_output σ)
    (text : List Nat) (h : writer_ok k fuel o) :
    ∃ o', discard (print_formatted k fuel o text) = some o' ∧
      writer_step k fuel o o' text := by
  obtain ⟨o', h1, s1⟩ := print_formatted_step k fuel o text h
  exact ⟨o', by simp [discard, h1], s1⟩

theorem for_loop_step {σ : Type} (k : Kconfig) (fuel : Nat)
    (body : Nat → log_output σ → Option (log_output σ)) (g : Nat → List Nat) (hi : Nat)
    (hbody : ∀ i o, i < hi → writer_ok k fuel o →
      ∃ o', body i o = some o' ∧ writer_step k fuel o o' (g i)) :
    ∀ (n i : Nat) (o : log_output σ), i + n ≤ hi → writer_ok k fuel o →
      ∃ o', for_loop body n i o = some o' ∧
        writer_step k fuel o o' ((List.range' i n).flatMap g) := by
  intro n
  induction n with
  | zero => intro i o _ h; exact ⟨o, rfl, by simpa using writer_step_refl k fuel o h⟩
  | succ n ih =>
    intro i o hle h
    obtain ⟨o1, h1, s1⟩ := hbody i o (by omega) h
    obtain ⟨o2, h2, s2⟩ := ih (i + 1) o1 (by omega) s1.1
    refine ⟨o2, ?_, ?_⟩
    · simp only [for_loop, h1, h2]
    · have := writer_step_trans s1 s2
      simpa [List.range'_succ] using this

theorem full_sink_accepts : sink_accepts full_sink := by
  intro ctx bytes
  refine ⟨?_, ?_⟩
  · intro h; subst h; rfl
  · intro h
    have : 1 ≤ bytes.length := by
      cases bytes with
      | nil => exact absurd rfl h
      | cons a l => simp
    simp only [full_sink]
    omega

theorem byte_sink_accepts : sink_accepts byte_sink := by
  intro ctx bytes
  refine ⟨?_, ?_⟩
  · intro h; subst h; rfl
  · intro h
    have : 1 ≤ bytes.length := by
      cases bytes with
      | nil => exact absurd rfl h
      | cons a l => simp
    simp only [byte_sink]
    omega

/-! ## Decimal rendering and the drop notice: proofs -/

theorem to_signed_small (n : Nat) (h : n < 2 ^ 31) : to_signed 32 n = (n : Int) := by
  unfold to_signed
  have h1 : n % 2 ^ 32 = n := Nat.mod_eq_of_lt (by norm_num at h ⊢; omega)
  rw [h1, if_pos (by norm_num at h ⊢; omega)]

theorem freq_set_one (k : Kconfig) : log_output_timestamp_freq_set k 1 = some ⟨1, 1⟩ := by
  simp [log_output_timestamp_freq_set, freq_set_loop]

theorem get_YMD_leap_day : get_YMD_from_seconds 951782400 = some ⟨2000, 2, 29⟩ := by decide

theorem timestamp_print_leap_day {σ : Type} (k : Kconfig) (x : Externals) (fuel : Nat)
    (o : log_output σ) (flags : Nat) (hnet : k.LOG_BACKEND_NET = true)
    (hnl : k.NEWLIB_LIBC = false)
    (hflag : flag_set flags LOG_OUTPUT_FLAG_FORMAT_SYSLOG = true) :
    timestamp_print k x ⟨1, 1⟩ fuel o flags 951782400 =
      print_formatted k fuel o (str "2000-02-29T00:00:00.000000Z ") := by
  have hw : (951782400 : Nat) % 2 ^ k.timestamp_bits = 951782400 := by
    unfold Kconfig.timestamp_bits; split <;> norm_num
  unfold timestamp_print
  simp only [hw, hflag, hnet, hnl, Bool.or_true, Bool.true_or, Bool.not_true, Bool.and_self,
    Nat.div_one, Nat.mod_one]
  norm_num [get_YMD_leap_day, subsec_ms, subsec_us]
  exact congrArg (print_formatted k fuel o) (by decide)

theorem year_loop_total :
    ∀ (fuel y s : Nat), s < fuel →
      ∃ y' s', year_loop fuel y s = some (y', s') ∧
        s' < gregorian_year_days y' * 86400 := by
  intro fuel
  induction fuel with
  | zero => intro y s h; omega
  | succ fuel ih =>
    intro y s hfuel
    unfold year_loop
    simp only [year_tmp_eq]
    by_cases hgt : gregorian_year_days y * 86400 > s
    · rw [if_pos hgt]
      exact ⟨y, s, rfl, hgt⟩
    · rw [if_neg hgt]
      have hpos : 365 ≤ gregorian_year_days y := by
        unfold gregorian_year_days; split <;> omega
      exact ih _ _ (by omega)

theorem get_YMD_total (seconds : Nat) :
    ∃ r, get_YMD_from_seconds seconds = some r ∧ 1 ≤ r.month ∧ r.month ≤ 12 ∧
      1 ≤ r.day ∧ r.day ≤ gregorian_month_days r.year r.month := by
  obtain ⟨y, s, hy, hs⟩ := year_loop_total (seconds % 2 ^ 64 + 1) 1970 (seconds % 2 ^ 64)
    (by omega)
  obtain ⟨j, s', hm1, _, hm3, hm4, _⟩ :=
    month_loop_spec y 48 0 s (by omega) (by omega)
      (by rw [days_before_month_one, days_before_month_13]; omega)
  have hle := gregorian_month_days_le y (j + 1)
  have hday : s' / 86400 < gregorian_month_days y (j + 1) := by
    rw [Nat.div_lt_iff_lt_mul (by norm_num)]; exact hm4
  have e1 : (1 + j) % 2 ^ 32 = j + 1 := by
    rw [Nat.mod_eq_of_lt (by norm_num; omega)]; omega
  have e2 : (1 + s' / 86400) % 2 ^ 32 = 1 + s' / 86400 :=
    Nat.mod_eq_of_lt (by norm_num; omega)
  refine ⟨⟨y, j + 1, 1 + s' / 86400⟩, ?_, ?_, ?_, ?_, ?_⟩
  · unfold get_YMD_from_seconds
    simp only [hy, hm1, SECONDS_IN_DAY, e1, e2]
  · show 1 ≤ j + 1; omega
  · show j + 1 ≤ 12; omega
  · show 1 ≤ 1 + s' / 86400; omega
  · show 1 + s' / 86400 ≤ gregorian_month_days y (j + 1); omega

theorem timestamp_print_step {σ : Type} (k : Kconfig) (x : Externals) (clock : Clock)
    (fuel : Nat) (o : log_output σ) (flags timestamp : Nat) (h : writer_ok k fuel o)
    (hc : clock.freq ≠ 0 → clock.timestamp_div ≠ 0) :
    ∃ o' text, timestamp_print k x clock fuel o flags timestamp = some (o', text.length) ∧
      writer_step k fuel o o' text := by
  have P : ∀ text, ∃ o' text', print_formatted k fuel o text = some (o', text'.length) ∧
      writer_step k fuel o o' text' := by
    intro text
    obtain ⟨o', h1, h2⟩ := print_formatted_step k fuel o text h
    exact ⟨o', text, h1, h2⟩
  unfold timestamp_print
  simp only []
  split_ifs with c1 c2 c3 c4 c5 c6 c7
  · exact P _
  · exact P _
  · exact absurd c4 (hc c3)
  · exact P _
  · obtain ⟨r, hr, _⟩ := get_YMD_total
      (timestamp % 2 ^ k.timestamp_bits / clock.timestamp_div / clock.freq)
    rw [hr]
    exact P _
  · exact P _
  · exact P _
  · exact ⟨o, [], rfl, writer_step_refl k fuel o h⟩

/-! ## Hexdump: proofs -/

theorem flag_set_iff (flags flag : Nat) : flag_set flags flag = true ↔ flags &&& flag ≠ 0 := by
  simp [flag_set]

theorem newline_print_step {σ : Type} (k : Kconfig) (fuel : Nat) (o : log_output σ)
    (flags : Nat) (h : writer_ok k fuel o) :
    ∃ o', newline_print k fuel o flags = some o' ∧
      writer_step k fuel o o' (newline_text k flags) := by
  unfold newline_print newline_text
  simp only [flag_set_iff]
  split_ifs
  · exact ⟨o, rfl, writer_step_refl k fuel o h⟩
  · exact ⟨o, rfl, writer_step_refl k fuel o h⟩
  · exact discard_print_step k fuel o _ h
  · exact discard_print_step k fuel o _ h

theorem fmt_x02_byte (b : Nat) (hb : b < 256) :
    fmt_x02 b = [digit_char (b / 16), digit_char (b % 16)] := by
  unfold fmt_x02 hex
  rw [digits_core]
  by_cases h : b < 16
  · rw [if_pos h]
    have h1 : b / 16 = 0 := Nat.div_eq_of_lt h
    have h2 : b % 16 = b := Nat.mod_eq_of_lt h
    rw [h1, h2]
    rfl
  · rw [if_neg h, digits_core, if_pos (by omega)]
    rfl

theorem isprint_iff (b : Nat) : isprint b = true ↔ 32 ≤ b ∧ b ≤ 126 := by
  simp [isprint]

theorem hexdump_gap_step {σ : Type} (k : Kconfig) (fuel : Nat) (o : log_output σ) (i : Nat)
    (h : writer_ok k fuel o) :
    ∃ o', (if 0 < i ∧ i % 8 = 0 then discard (print_formatted k fuel o (str " "))
        else some o) = some o' ∧ writer_step k fuel o o' (hexdump_gap i) := by
  unfold hexdump_gap
  split_ifs
  · exact discard_print_step k fuel o _ h
  · exact ⟨o, rfl, writer_step_refl k fuel o h⟩

theorem hexdump_hex_slot_step {σ : Type} (k : Kconfig) (fuel : Nat) (data : List Nat)
    (length i : Nat) (hlen : i < length ↔ i < data.length) (hbytes : ∀ b ∈ data, b < 256)
    (o : log_output σ) (h : writer_ok k fuel o) :
    ∃ o', hexdump_hex_slot k fuel data length i o = some o' ∧
      writer_step k fuel o o' (hexdump_gap i ++ hexdump_hex_slot_spec data 0 i) := by
  obtain ⟨o1, h1, s1⟩ := hexdump_gap_step k fuel o i h
  unfold hexdump_hex_slot hexdump_hex_slot_spec
  simp only [h1, Nat.mul_zero, Nat.zero_add]
  by_cases hi : i < data.length
  · rw [if_pos (hlen.2 hi)]
    have hget : data[i]? = some data[i] := List.getElem?_eq_getElem hi
    have hb := hbytes data[i] (List.getElem_mem hi)
    simp only [hget]
    obtain ⟨o2, h2, s2⟩ := discard_print_step k fuel o1 (fmt_x02 data[i] ++ str " ") s1.1
    refine ⟨o2, h2, ?_⟩
    have := writer_step_trans s1 s2
    rw [fmt_x02_byte _ hb] at this
    exact this
  · rw [if_neg (fun hc => hi (hlen.1 hc))]
    have hget : data[i]? = none := List.getElem?_eq_none (by omega)
    simp only [hget]
    obtain ⟨o2, h2, s2⟩ := discard_print_step k fuel o1 (str "   ") s1.1
    exact ⟨o2, h2, writer_step_trans s1 s2⟩

theorem hexdump_ascii_slot_step {σ : Type} (k : Kconfig) (fuel : Nat) (data : List Nat)
    (length i : Nat) (hlen : i < length ↔ i < data.length)
    (o : log_output σ) (h : writer_ok k fuel o) :
    ∃ o', hexdump_ascii_slot k fuel data length i o = some o' ∧
      writer_step k fuel o o' (hexdump_gap i ++ hexdump_ascii_slot_spec data 0 i) := by
  obtain ⟨o1, h1, s1⟩ := hexdump_gap_step k fuel o i h
  unfold hexdump_ascii_slot hexdump_ascii_slot_spec
  simp only [h1, Nat.mul_zero, Nat.zero_add]
  by_cases hi : i < data.length
  · rw [if_pos (hlen.2 hi)]
    have hget : data[i]? = some data[i] := List.getElem?_eq_getElem hi
    simp only [hget]
    obtain ⟨o2, h2, s2⟩ := discard_print_step k fuel o1
      [if isprint data[i] = true then data[i] else 46] s1.1
    refine ⟨o2, h2, ?_⟩
    have := writer_step_trans s1 s2
    simp only [isprint_iff] at this
    exact this
  · rw [if_neg (fun hc => hi (hlen.1 hc))]
    have hget : data[i]? = none := List.getElem?_eq_none (by omega)
    simp only [hget]
    obtain ⟨o2, h2, s2⟩ := discard_print_step k fuel o1 (str " ") s1.1
    exact ⟨o2, h2, writer_step_trans s1 s2⟩

theorem flatMap_const_range' (c : List Nat) :
    ∀ (n i : Nat), (List.range' i n).flatMap (fun _ => c) = (List.replicate n c).flatten := by
  intro n
  induction n with
  | zero => intro i; rfl
  | succ n ih => intro i; simp [List.range'_succ, List.replicate_succ, ih (i + 1)]

theorem replicate_singleton_flatten (n c : Nat) :
    (List.replicate n [c]).flatten = List.replicate n c := by
  induction n with
  | zero => rfl
  | succ n ih => simp [List.replicate_succ, ih]

theorem hexdump_line_print_step {σ : Type} (k : Kconfig) (fuel : Nat) (o : log_output σ)
    (data : List Nat) (length : Nat) (prefix_offset : Int) (flags : Nat)
    (hlen : ∀ i, i < 16 → (i < length ↔ i < data.length))
    (hbytes : ∀ b ∈ data, b < 256) (h : writer_ok k fuel o) :
    ∃ o', hexdump_line_print k fuel o data length prefix_offset flags = some o' ∧
      writer_step k fuel o o'
        (hexdump_line_spec data (newline_text k flags) prefix_offset.toNat 0) := by
  obtain ⟨o1, h1, s1⟩ := newline_print_step k fuel o flags h
  obtain ⟨o2, h2, s2⟩ := for_loop_step k fuel
    (fun _ o => discard (print_formatted k fuel o (str " "))) (fun _ => str " ")
    prefix_offset.toNat (fun _ o _ ho => discard_print_step k fuel o _ ho)
    prefix_offset.toNat 0 o1 (by omega) s1.1
  obtain ⟨o3, h3, s3⟩ := for_loop_step k fuel (hexdump_hex_slot k fuel data length)
    (fun i => hexdump_gap i ++ hexdump_hex_slot_spec data 0 i) 16
    (fun i o hi ho => hexdump_hex_slot_step k fuel data length i (hlen i hi) hbytes o ho)
    16 0 o2 (by omega) s2.1
  obtain ⟨o4, h4, s4⟩ := print_formatted_step k fuel o3 (str "|") s3.1
  obtain ⟨o5, h5, s5⟩ := for_loop_step k fuel (hexdump_ascii_slot k fuel data length)
    (fun i => hexdump_gap i ++ hexdump_ascii_slot_spec data 0 i) 16
    (fun i o hi ho => hexdump_ascii_slot_step k fuel data length i (hlen i hi) o ho)
    16 0 o4 (by omega) s4.1
  refine ⟨o5, ?_, ?_⟩
  · unfold hexdump_line_print
    simp only [h1, h2, HEXDUMP_BYTES_IN_LINE, h3, h4, h5]
  · have := writer_step_trans (writer_step_trans (writer_step_trans
      (writer_step_trans s1 s2) s3) s4) s5
    have hsp : str " " = [32] := rfl
    have hbar : str "|" = [124] := rfl
    rw [flatMap_const_range', hsp, replicate_singleton_flatten, hbar,
      ← List.range_eq_range'] at this
    exact this

theorem hexdump_line_spec_drop (data nl : List Nat) (margin line : Nat) :
    hexdump_line_spec (data.drop 16) nl margin line =
      hexdump_line_spec data nl margin (line + 1) := by
  have hidx : ∀ i, (data.drop 16)[16 * line + i]? = data[16 * (line + 1) + i]? := by
    intro i
    rw [List.getElem?_drop]
    congr 1
    omega
  unfold hexdump_line_spec hexdump_hex_slot_spec hexdump_ascii_slot_spec
  simp only [hidx]

theorem hexdump_lines_spec_single (data nl : List Nat) (margin : Nat)
    (h1 : 1 ≤ data.length) (h16 : data.length ≤ 16) :
    hexdump_lines_spec data nl margin = [hexdump_line_spec data nl margin 0] := by
  unfold hexdump_lines_spec
  have : (data.length + 15) / 16 = 1 := by omega
  rw [this]
  rfl

theorem hexdump_lines_spec_cons (data nl : List Nat) (margin : Nat)
    (h : 16 < data.length) :
    hexdump_lines_spec data nl margin =
      hexdump_line_spec data nl margin 0 :: hexdump_lines_spec (data.drop 16) nl margin := by
  unfold hexdump_lines_spec
  have hl : (data.drop 16).length = data.length - 16 := List.length_drop _ _
  have : (data.length + 15) / 16 = ((data.drop 16).length + 15) / 16 + 1 := by
    rw [hl]; omega
  rw [this, List.range_succ_eq_map, List.map_cons, List.map_map]
  congr 1
  apply List.map_congr_left
  intro j _
  simp only [Function.comp, hexdump_line_spec_drop]

theorem log_msg_hexdump_loop_step {σ : Type} (k : Kconfig) (fuel : Nat)
    (prefix_offset : Int) (flags : Nat) :
    ∀ (n : Nat) (o : log_output σ) (data : List Nat), writer_ok k fuel o →
      1 ≤ data.length → data.length ≤ n → (∀ b ∈ data, b < 256) →
      ∃ o', log_msg_hexdump_loop k fuel prefix_offset flags n o data data.length = some o' ∧
        writer_step k fuel o o'
          (hexdump_lines_spec data (newline_text k flags) prefix_offset.toNat).flatten := by
  intro n
  induction n with
  | zero => intro o data _ h1 h2; omega
  | succ n ih =>
    intro o data h h1 hn hbytes
    obtain ⟨o1, r1, s1⟩ := hexdump_line_print_step k fuel o data
      (min data.length HEXDUMP_BYTES_IN_LINE) prefix_offset flags
      (by intro i hi; unfold HEXDUMP_BYTES_IN_LINE; omega) hbytes h
    unfold log_msg_hexdump_loop
    simp only [r1]
    have hl : (data.drop (min data.length HEXDUMP_BYTES_IN_LINE)).length =
        data.length - min data.length HEXDUMP_BYTES_IN_LINE := List.length_drop _ _
    by_cases hmore : data.length - min data.length HEXDUMP_BYTES_IN_LINE ≠ 0
    · rw [if_pos hmore]
      have h16 : 16 < data.length := by unfold HEXDUMP_BYTES_IN_LINE at hmore; omega
      have hmin : min data.length HEXDUMP_BYTES_IN_LINE = 16 := by
        unfold HEXDUMP_BYTES_IN_LINE; omega
      rw [hmin] at hl ⊢
      obtain ⟨o2, r2, s2⟩ := ih o1 (data.drop 16) s1.1 (by omega) (by omega)
        (fun b hb => hbytes b (List.mem_of_mem_drop hb))
      rw [hl] at r2
      refine ⟨o2, r2, ?_⟩
      have := writer_step_trans s1 s2
      rw [hexdump_lines_spec_cons data _ _ h16]
      simpa using this
    · rw [if_neg hmore]
      have h16 : data.length ≤ 16 := by unfold HEXDUMP_BYTES_IN_LINE at hmore; omega
      refine ⟨o1, rfl, ?_⟩
      rw [hexdump_lines_spec_single data _ _ h1 h16]
      simpa using s1

/-! ## Prefix: proofs -/

theorem add_len_some {σ : Type} (length : Nat) (r : Option (log_output σ × Nat))
    (o' : log_output σ) (n : Nat) (h : r = some (o', n)) :
    add_len length r = some (o', (length + n) % 2 ^ 32) := by
  subst h; rfl

theorem add_total_some {σ : Type} (total : Nat) (r : Option (log_output σ × Nat))
    (o' : log_output σ) (n : Nat) (h : r = some (o', n)) :
    add_total total r = some (o', total + n) := by
  subst h; rfl

theorem color_print_step {σ : Type} (k : Kconfig) (fuel : Nat) (o : log_output σ)
    (color start : Bool) (level : Nat) (hl : level ≤ 4) (h : writer_ok k fuel o) :
    ∃ o', color_print k fuel o color start level = some o' ∧
      writer_step k fuel o o' (color_text k color start level) := by
  unfold color_print color_text
  cases color with
  | false => exact ⟨o, rfl, writer_step_refl k fuel o h⟩
  | true =>
    cases start with
    | false => exact discard_print_step k fuel o _ h
    | true =>
      have hlt : level < (colors k).length := by simp [colors]; omega
      have hget : (colors k)[level]? = some (colors k)[level] := List.getElem?_eq_getElem hlt
      simp only [hget, if_true]
      cases hc : (colors k)[level] with
      | none => exact discard_print_step k fuel o _ h
      | some c => exact discard_print_step k fuel o _ h

theorem ids_print_step {σ : Type} (k : Kconfig) (x : Externals) (fuel : Nat)
    (o : log_output σ) (level_on func_on : Bool) (domain source : Option (List Nat))
    (level : Nat) (hl : level ≤ 4) (hl1 : level_on = true → 1 ≤ level)
    (h : writer_ok k fuel o) :
    ∃ o' text n, ids_print k x fuel o level_on func_on domain source level = some (o', n) ∧
      n = text.length ∧ writer_step k fuel o o' text := by
  have s1 : ∃ o1 t1, (if level_on = true then
        match severity[level]? with
        | some (some name) =>
          add_total 0 (print_formatted k fuel o (str "<" ++ name ++ str "> "))
        | _ => none
      else some (o, 0)) = some (o1, t1.length) ∧ writer_step k fuel o o1 t1 := by
    cases level_on with
    | false => exact ⟨o, [], rfl, writer_step_refl k fuel o h⟩
    | true =>
      have h1 := hl1 rfl
      have hsev : ∃ name, severity[level]? = some (some name) := by
        interval_cases level <;> exact ⟨_, rfl⟩
      obtain ⟨name, hname⟩ := hsev
      obtain ⟨o1, p1, q1⟩ := print_formatted_step k fuel o (str "<" ++ name ++ str "> ") h
      refine ⟨o1, _, ?_, q1⟩
      simp only [hname, if_true, add_total_some 0 _ o1 _ p1, Nat.zero_add]
  obtain ⟨o1, t1, r1, w1⟩ := s1
  have P : ∀ (o2 : log_output σ) (t2 : List Nat) (total : Nat) (text : List Nat),
      total = (t1 ++ t2).length → writer_step k fuel o1 o2 t2 →
      ∃ o' text' n, add_total total (print_formatted k fuel o2 text) = some (o', n) ∧
        n = text'.length ∧ writer_step k fuel o o' text' := by
    intro o2 t2 total text htot w2
    obtain ⟨o3, p3, q3⟩ := print_formatted_step k fuel o2 text w2.1
    refine ⟨o3, t1 ++ t2 ++ text, _, add_total_some _ _ o3 _ p3, ?_,
      writer_step_trans (writer_step_trans w1 w2) q3⟩
    rw [htot]; simp only [List.length_append]
  unfold ids_print
  simp only [r1]
  cases domain with
  | none =>
    have w2 := writer_step_refl k fuel o1 w1.1
    have htot : t1.length = (t1 ++ []).length := by simp
    cases source with
    | none => exact ⟨o1, t1, _, rfl, rfl, w1⟩
    | some src =>
      simp only []
      split_ifs with c1 c2 c3
      · omega
      · exact P o1 [] _ _ htot w2
      · exact P o1 [] _ _ htot w2
      · exact P o1 [] _ _ htot w2
  | some d =>
    obtain ⟨o2, p2, q2⟩ := print_formatted_step k fuel o1 (d ++ str "/") w1.1
    have htot : t1.length + (d ++ str "/").length = (t1 ++ (d ++ str "/")).length := by
      simp only [List.length_append]
    simp only [add_total_some _ _ o2 _ p2]
    cases source with
    | none => exact ⟨o2, t1 ++ (d ++ str "/"), _, rfl, htot, writer_step_trans w1 q2⟩
    | some src =>
      simp only []
      split_ifs with c1 c2 c3
      · omega
      · exact P o2 _ _ _ htot q2
      · exact P o2 _ _ _ htot q2
      · exact P o2 _ _ _ htot q2

theorem opt_print_stage {σ : Type} (k : Kconfig) (fuel : Nat) (c : Bool)
    (p : log_output σ × Nat) (text : List Nat) (h : writer_ok k fuel p.1) :
    ∃ o1 t1 l1, (if c = true then add_len p.2 (print_formatted k fuel p.1 text)
        else some p) = some (o1, l1) ∧ writer_step k fuel p.1 o1 t1 ∧
      l1 % 2 ^ 32 = (p.2 + t1.length) % 2 ^ 32 := by
  cases c with
  | false => exact ⟨p.1, [], p.2, rfl, writer_step_refl k fuel p.1 h, by simp⟩
  | true =>
    obtain ⟨o1, h1, s1⟩ := print_formatted_step k fuel p.1 text h
    exact ⟨o1, text, (p.2 + text.length) % 2 ^ 32,
      by simp only [if_true, add_len_some _ _ o1 _ h1], s1, Nat.mod_mod _ _⟩

theorem tag_stage {σ : Type} (k : Kconfig) (fuel : Nat) (tag : Option (List Nat))
    (p : log_output σ × Nat) (h : writer_ok k fuel p.1) :
    ∃ o1 t1 l1, ((match tag with
        | some t => add_len p.2 (print_formatted k fuel p.1 (t ++ str " "))
        | none => some p) : Option (log_output σ × Nat)) = some (o1, l1) ∧
      writer_step k fuel p.1 o1 t1 ∧ l1 % 2 ^ 32 = (p.2 + t1.length) % 2 ^ 32 := by
  cases tag with
  | none => exact ⟨p.1, [], p.2, rfl, writer_step_refl k fuel p.1 h, by simp⟩
  | some t =>
    obtain ⟨o1, h1, s1⟩ := print_formatted_step k fuel p.1 (t ++ str " ") h
    exact ⟨o1, t ++ str " ", (p.2 + (t ++ str " ").length) % 2 ^ 32,
      by simp only [add_len_some _ _ o1 _ h1], s1, Nat.mod_mod _ _⟩

theorem stamp_stage {σ : Type} (k : Kconfig) (x : Externals) (clock : Clock) (fuel : Nat)
    (c : Bool) (p : log_output σ × Nat) (flags timestamp : Nat)
    (hc : clock.freq ≠ 0 → clock.timestamp_div ≠ 0) (h : writer_ok k fuel p.1) :
    ∃ o1 t1 l1, (if c = true then
          add_len p.2 (timestamp_print k x clock fuel p.1 flags timestamp)
        else some p) = some (o1, l1) ∧ writer_step k fuel p.1 o1 t1 ∧
      l1 % 2 ^ 32 = (p.2 + t1.length) % 2 ^ 32 := by
  cases c with
  | false => exact ⟨p.1, [], p.2, rfl, writer_step_refl k fuel p.1 h, by simp⟩
  | true =>
    obtain ⟨o1, t1, h1, s1⟩ := timestamp_print_step k x clock fuel p.1 flags timestamp h hc
    exact ⟨o1, t1, (p.2 + t1.length) % 2 ^ 32,
      by simp only [if_true, add_len_some _ _ o1 _ h1], s1, Nat.mod_mod _ _⟩

theorem prefix_print_step {σ : Type} (k : Kconfig) (x : Externals) (clock : Clock)
    (fuel : Nat) (o : log_output σ) (flags : Nat) (func_on : Bool) (timestamp : Nat)
    (domain source : Option (List Nat)) (level : Nat) (hw : writer_ok k fuel o)
    (hc : clock.freq ≠ 0 → clock.timestamp_div ≠ 0) (hl : level ≤ 4)
    (hl1 : flag_set flags LOG_OUTPUT_FLAG_LEVEL = true → 1 ≤ level) :
    ∃ o' text n,
      prefix_print k x clock fuel o flags func_on timestamp domain source level =
        some (o', n) ∧
      writer_step k fuel o o' text ∧
      (prefix_color_text k flags level).length ≤ text.length ∧
      n = (text.length - (prefix_color_text k flags level).length) % 2 ^ 32 := by
  have hlv : level % 2 ^ 8 = level := Nat.mod_eq_of_lt (by norm_num; omega)
  unfold prefix_print prefix_color_text
  simp only [hlv]
  obtain ⟨o1, t1, l1, h1, w1, e1⟩ := opt_print_stage k fuel
    (k.LOG_BACKEND_NET && flag_set flags LOG_OUTPUT_FLAG_FORMAT_SYSLOG) (o, 0)
    (str "<" ++ fmt_d (16 * 8 + level_to_rfc5424_severity level : Nat) ++ str ">1 ") hw
  simp only [h1, Option.some_bind]
  obtain ⟨o2, t2, l2, h2, w2, e2⟩ := tag_stage k fuel (if k.LOG = true then x.tag else none)
    (o1, l1) w1.1
  simp only [h2, Option.some_bind]
  obtain ⟨o3, t3, l3, h3, w3, e3⟩ := stamp_stage k x clock fuel
    (flag_set flags LOG_OUTPUT_FLAG_TIMESTAMP) (o2, l2) flags timestamp hc w2.1
  simp only [h3, Option.some_bind]
  cases hsys : (k.LOG_BACKEND_NET && flag_set flags LOG_OUTPUT_FLAG_FORMAT_SYSLOG) with
  | true =>
    obtain ⟨o4, h4, w4⟩ := print_formatted_step k fuel o3 (hostname_text o3 ++ str " - - - - ")
      w3.1
    obtain ⟨o5, t5, n5, h5, e5, w5⟩ := ids_print_step k x fuel o4
      (flag_set flags LOG_OUTPUT_FLAG_LEVEL) func_on domain source level hl hl1 w4.1
    refine ⟨o5, t1 ++ t2 ++ t3 ++ (hostname_text o3 ++ str " - - - - ") ++ t5,
      ((l3 + (hostname_text o3 ++ str " - - - - ").length) % 2 ^ 32 + n5) % 2 ^ 32, ?_,
      writer_step_trans (writer_step_trans (writer_step_trans (writer_step_trans
        w1 w2) w3) w4) w5, ?_, ?_⟩
    · simp only [if_true, add_len_some _ _ o4 _ h4, Option.some_bind,
        add_len_some _ _ o5 _ h5]
    · simp
    · simp only [List.length_append, List.length_nil, Nat.sub_zero, if_true] at *
      subst e5
      omega
  | false =>
    obtain ⟨o4, h4, w4⟩ := color_print_step k fuel o3
      (flag_set flags LOG_OUTPUT_FLAG_COLORS) true level hl w3.1
    obtain ⟨o5, t5, n5, h5, e5, w5⟩ := ids_print_step k x fuel o4
      (flag_set flags LOG_OUTPUT_FLAG_LEVEL) func_on domain source level hl hl1 w4.1
    refine ⟨o5, t1 ++ t2 ++ t3 ++
        color_text k (flag_set flags LOG_OUTPUT_FLAG_COLORS) true level ++ t5,
      (l3 + n5) % 2 ^ 32, ?_,
      writer_step_trans (writer_step_trans (writer_step_trans (writer_step_trans
        w1 w2) w3) w4) w5, ?_, ?_⟩
    · unfold color_prefix
      simp only [h4, Option.map_some', Option.some_bind, Bool.false_eq_true, if_false]
      exact add_len_some l3 _ o5 n5 h5
    · simp only [List.length_append]
      simp only [Bool.false_eq_true, if_false]
      omega
    · simp only [List.length_append, Bool.false_eq_true, if_false] at *
      subst e5
      omega

/-! ## Flush and calendar safety: proofs -/

theorem subsec_exact (freq r : Nat) (h0 : 0 < freq) (h1 : freq ≤ 1000000) (hr : r < freq) :
    r * 1000 < 2 ^ 32 ∧ subsec_ms freq r = r * 1000 / freq ∧
      subsec_ms freq r * freq ≤ r * 1000 ∧
      1000 * (r * 1000 - subsec_ms freq r * freq) < 2 ^ 32 ∧
      subsec_us freq r = 1000 * (r * 1000 - subsec_ms freq r * freq) / freq ∧
      subsec_ms freq r < 1000 ∧ subsec_us freq r < 1000 ∧
      subsec_ms freq r * 1000 + subsec_us freq r = r * 1000000 / freq := by
  have ha : r * 1000 < 2 ^ 32 := by norm_num; omega
  have hms : subsec_ms freq r = r * 1000 / freq := by
    unfold subsec_ms; rw [Nat.mod_eq_of_lt ha]
  have hdm : freq * (r * 1000 / freq) + r * 1000 % freq = r * 1000 := Nat.div_add_mod _ _
  have hmod : r * 1000 % freq < freq := Nat.mod_lt _ h0
  have hcomm : r * 1000 / freq * freq = freq * (r * 1000 / freq) := Nat.mul_comm _ _
  have hle : r * 1000 / freq * freq ≤ r * 1000 := by omega
  have hsub : r * 1000 - r * 1000 / freq * freq = r * 1000 % freq := by omega
  have hprod : r * 1000 / freq * freq < 2 ^ 32 := by omega
  have hk : 1000 * (r * 1000 % freq) < 2 ^ 32 := by norm_num; omega
  have hus : subsec_us freq r = 1000 * (r * 1000 % freq) / freq := by
    unfold subsec_us
    rw [hms, Nat.mod_eq_of_lt ha, Nat.mod_eq_of_lt hprod]
    have e : (r * 1000 + 2 ^ 32 - r * 1000 / freq * freq) % 2 ^ 32 = r * 1000 % freq := by
      have : r * 1000 + 2 ^ 32 - r * 1000 / freq * freq = r * 1000 % freq + 2 ^ 32 := by omega
      rw [this, Nat.add_mod_right, Nat.mod_eq_of_lt (by norm_num; omega)]
    rw [e, Nat.mod_eq_of_lt hk]
  have hms_lt : r * 1000 / freq < 1000 := by
    rw [Nat.div_lt_iff_lt_mul h0]
    have : r * 1000 < freq * 1000 := by omega
    linarith
  have hus_lt : 1000 * (r * 1000 % freq) / freq < 1000 := by
    rw [Nat.div_lt_iff_lt_mul h0]
    have : 1000 * (r * 1000 % freq) < 1000 * freq := by omega
    exact this
  have hsum : r * 1000 / freq * 1000 + 1000 * (r * 1000 % freq) / freq =
      r * 1000000 / freq := by
    have e : r * 1000000 =
        1000 * (r * 1000 % freq) + freq * (r * 1000 / freq * 1000) := by
      have : r * 1000000 = (freq * (r * 1000 / freq) + r * 1000 % freq) * 1000 := by
        rw [hdm]; ring
      rw [this]; ring
    rw [e, Nat.add_mul_div_left _ _ h0]
    omega
  refine ⟨ha, hms, ?_, ?_, ?_, ?_, ?_, ?_⟩
  · rw [hms]; exact hle
  · rw [hms, hsub]; exact hk
  · rw [hus, hms, hsub]
  · rw [hms]; exact hms_lt
  · rw [hus]; exact hus_lt
  · rw [hms, hus]; exact hsum

/-! ## Plain tick rendering: proofs -/

theorem ids_print_parts {σ : Type} (k : Kconfig) (x : Externals) (fuel : Nat)
    (o : log_output σ) (level_on func_on : Bool) (domain source : Option (List Nat))
    (level : Nat) (hl : level ≤ 4) (hl1 : level_on = true → 1 ≤ level)
    (h : writer_ok k fuel o) :
    ∃ o', ids_print k x fuel o level_on func_on domain source level =
        some (o', (ids_text x level_on func_on domain source level).length) ∧
      writer_step k fuel o o' (ids_text x level_on func_on domain source level) := by
  have s1 : ∃ o1, (if level_on = true then
        match severity[level]? with
        | some (some name) =>
          add_total 0 (print_formatted k fuel o (str "<" ++ name ++ str "> "))
        | _ => none
      else some (o, 0)) = some (o1, (level_tag_text level_on level).length) ∧
      writer_step k fuel o o1 (level_tag_text level_on level) := by
    cases level_on with
    | false => exact ⟨o, rfl, writer_step_refl k fuel o h⟩
    | true =>
      have h1 := hl1 rfl
      have hsev : ∃ name, severity[level]? = some (some name) := by
        interval_cases level <;> exact ⟨_, rfl⟩
      obtain ⟨name, hname⟩ := hsev
      obtain ⟨o1, p1, q1⟩ := print_formatted_step k fuel o (str "<" ++ name ++ str "> ") h
      refine ⟨o1, ?_, ?_⟩
      · simp only [level_tag_text, hname, if_true, add_total_some 0 _ o1 _ p1, Nat.zero_add]
      · simpa only [level_tag_text, hname, if_true] using q1
  obtain ⟨o1, r1, w1⟩ := s1
  have P : ∀ (o2 : log_output σ) (t2 : List Nat) (total : Nat) (text : List Nat),
      total = (level_tag_text level_on level ++ t2).length →
      writer_step k fuel o1 o2 t2 →
      ∃ o', add_total total (print_formatted k fuel o2 text) =
          some (o', (level_tag_text level_on level ++ t2 ++ text).length) ∧
        writer_step k fuel o o' (level_tag_text level_on level ++ t2 ++ text) := by
    intro o2 t2 total text htot w2
    obtain ⟨o3, p3, q3⟩ := print_formatted_step k fuel o2 text w2.1
    refine ⟨o3, ?_, writer_step_trans (writer_step_trans w1 w2) q3⟩
    rw [add_total_some _ _ o3 _ p3, htot]
    simp only [List.length_append]
  unfold ids_print ids_text
  simp only [r1]
  cases domain with
  | none =>
    have w2 := writer_step_refl k fuel o1 w1.1
    have htot : (level_tag_text level_on level).length =
        (level_tag_text level_on level ++ []).length := by simp
    cases source with
    | none =>
      refine ⟨o1, ?_, ?_⟩
      · simp [domain_text, source_text]
      · simpa [domain_text, source_text] using w1
    | some src =>
      simp only [domain_text, source_text, List.append_nil]
      cases func_on with
      | false =>
        simpa using P o1 [] _ (src ++ str ": ") htot w2
      | true =>
        have h31 : ¬ 31 ≤ level := by omega
        simp only [if_true, true_and, if_neg h31]
        by_cases c2 : 1 <<< level &&& x.LOG_FUNCTION_PREFIX_MASK ≠ 0
        · simp only [if_pos c2]
          simpa using P o1 [] _ (src ++ str ".") htot w2
        · simp only [if_neg c2]
          simpa using P o1 [] _ (src ++ str ": ") htot w2
  | some d =>
    obtain ⟨o2, p2, q2⟩ := print_formatted_step k fuel o1 (d ++ str "/") w1.1
    have htot : (level_tag_text level_on level).length + (d ++ str "/").length =
        (level_tag_text level_on level ++ (d ++ str "/")).length := by
      simp only [List.length_append]
    simp only [add_total_some _ _ o2 _ p2]
    cases source with
    | none =>
      refine ⟨o2, ?_, ?_⟩
      · simp [domain_text, source_text]
      · simpa [domain_text, source_text] using writer_step_trans w1 q2
    | some src =>
      simp only [domain_text, source_text]
      cases func_on with
      | false =>
        simpa using P o2 _ _ (src ++ str ": ") htot q2
      | true =>
        have h31 : ¬ 31 ≤ level := by omega
        simp only [if_true, true_and, if_neg h31]
        by_cases c2 : 1 <<< level &&& x.LOG_FUNCTION_PREFIX_MASK ≠ 0
        · simp only [if_pos c2]
          simpa using P o2 _ _ (src ++ str ".") htot q2
        · simp only [if_neg c2]
          simpa using P o2 _ _ (src ++ str ": ") htot q2

theorem prefix_print_parts {σ : Type} (k : Kconfig) (x : Externals) (clock : Clock)
    (fuel : Nat) (o : log_output σ) (flags : Nat) (func_on : Bool) (timestamp : Nat)
    (domain source : Option (List Nat)) (level : Nat) (hw : writer_ok k fuel o)
    (hc : clock.freq ≠ 0 → clock.timestamp_div ≠ 0) (hl : level ≤ 4)
    (hl1 : flag_set flags LOG_OUTPUT_FLAG_LEVEL = true → 1 ≤ level) :
    ∃ o' head n,
      prefix_print k x clock fuel o flags func_on timestamp domain source level =
        some (o', n) ∧
      writer_step k fuel o o'
        (head ++ prefix_color_text k flags level ++
          ids_text x (flag_set flags LOG_OUTPUT_FLAG_LEVEL) func_on domain source level) ∧
      n = (head.length +
        (ids_text x (flag_set flags LOG_OUTPUT_FLAG_LEVEL) func_on domain source
          level).length) % 2 ^ 32 := by
  have hlv : level % 2 ^ 8 = level := Nat.mod_eq_of_lt (by norm_num; omega)
  unfold prefix_print prefix_color_text
  simp only [hlv]
  obtain ⟨o1, t1, l1, h1, w1, e1⟩ := opt_print_stage k fuel
    (k.LOG_BACKEND_NET && flag_set flags LOG_OUTPUT_FLAG_FORMAT_SYSLOG) (o, 0)
    (str "<" ++ fmt_d (16 * 8 + level_to_rfc5424_severity level : Nat) ++ str ">1 ") hw
  simp only [h1, Option.some_bind]
  obtain ⟨o2, t2, l2, h2, w2, e2⟩ := tag_stage k fuel (if k.LOG = true then x.tag else none)
    (o1, l1) w1.1
  simp only [h2, Option.some_bind]
  obtain ⟨o3, t3, l3, h3, w3, e3⟩ := stamp_stage k x clock fuel
    (flag_set flags LOG_OUTPUT_FLAG_TIMESTAMP) (o2, l2) flags timestamp hc w2.1
  simp only [h3, Option.some_bind]
  cases hsys : (k.LOG_BACKEND_NET && flag_set flags LOG_OUTPUT_FLAG_FORMAT_SYSLOG) with
  | true =>
    obtain ⟨o4, h4, w4⟩ := print_formatted_step k fuel o3 (hostname_text o3 ++ str " - - - - ")
      w3.1
    obtain ⟨o5, h5, w5⟩ := ids_print_parts k x fuel o4
      (flag_set flags LOG_OUTPUT_FLAG_LEVEL) func_on domain source level hl hl1 w4.1
    refine ⟨o5, t1 ++ t2 ++ t3 ++ (hostname_text o3 ++ str " - - - - "),
      ((l3 + (hostname_text o3 ++ str " - - - - ").length) % 2 ^ 32 +
        (ids_text x (flag_set flags LOG_OUTPUT_FLAG_LEVEL) func_on domain source
          level).length) % 2 ^ 32, ?_, ?_, ?_⟩
    · simp only [if_true, add_len_some _ _ o4 _ h4, Option.some_bind,
        add_len_some _ _ o5 _ h5]
    · have := writer_step_trans (writer_step_trans (writer_step_trans (writer_step_trans
        w1 w2) w3) w4) w5
      simpa using this
    · simp only [List.length_append] at *
      omega
  | false =>
    obtain ⟨o4, h4, w4⟩ := color_print_step k fuel o3
      (flag_set flags LOG_OUTPUT_FLAG_COLORS) true level hl w3.1
    obtain ⟨o5, h5, w5⟩ := ids_print_parts k x fuel o4
      (flag_set flags LOG_OUTPUT_FLAG_LEVEL) func_on domain source level hl hl1 w4.1
    refine ⟨o5, t1 ++ t2 ++ t3,
      (l3 + (ids_text x (flag_set flags LOG_OUTPUT_FLAG_LEVEL) func_on domain source
          level).length) % 2 ^ 32, ?_, ?_, ?_⟩
    · unfold color_prefix
      simp only [h4, Option.map_some', Option.some_bind, Bool.false_eq_true, if_false]
      exact add_len_some l3 _ o5 _ h5
    · have := writer_step_trans (writer_step_trans (writer_step_trans (writer_step_trans
        w1 w2) w3) w4) w5
      simpa using this
    · simp only [List.length_append] at *
      omega

theorem color_postfix_step {σ : Type} (k : Kconfig) (fuel : Nat) (o : log_output σ)
    (color : Bool) (level : Nat) (h : writer_ok k fuel o) :
    ∃ o', color_postfix k fuel o color level = some o' ∧
      writer_step k fuel o o' (color_text k color false level) := by
  unfold color_postfix color_print color_text
  cases color with
  | false => exact ⟨o, rfl, writer_step_refl k fuel o h⟩
  | true => exact discard_print_step k fuel o _ h

theorem postfix_print_step {σ : Type} (k : Kconfig) (fuel : Nat) (o : log_output σ)
    (flags level : Nat) (h : writer_ok k fuel o) :
    ∃ o', postfix_print k fuel o flags level = some o' ∧
      writer_step k fuel o o' (postfix_text k flags level) := by
  obtain ⟨o1, h1, w1⟩ := color_postfix_step k fuel o
    (flag_set flags LOG_OUTPUT_FLAG_COLORS) (level % 2 ^ 8) h
  obtain ⟨o2, h2, w2⟩ := newline_print_step k fuel o1 flags w1.1
  refine ⟨o2, ?_, writer_step_trans w1 w2⟩
  unfold postfix_print
  simp only [h1, h2]

theorem process_hexdump_step {σ : Type} (k : Kconfig) (fuel : Nat) (o : log_output σ)
    (data : List Nat) (prefix_offset flags : Nat) (hw : writer_ok k fuel o)
    (hbytes : ∀ b ∈ data, b < 256) (hlen : data.length < 2 ^ 32) :
    ∃ o', process_hexdump k fuel o data data.length prefix_offset flags = some o' ∧
      writer_step k fuel o o' (hexdump_lines_spec data (newline_text k flags)
          (to_signed 32 prefix_offset).toNat).flatten := by
  unfold process_hexdump
  by_cases h0 : data.length ≠ 0
  · rw [if_pos h0]
    unfold log_msg_hexdump
    rw [Nat.mod_eq_of_lt hlen]
    exact log_msg_hexdump_loop_step k fuel (to_signed 32 prefix_offset) flags
      (data.length + 1) o data hw (by omega) (by omega) hbytes
  · rw [if_neg h0]
    have hnil : data = [] := List.length_eq_zero.1 (by omega)
    subst hnil
    exact ⟨o, rfl, by simpa [hexdump_lines_spec] using writer_step_refl k fuel o hw⟩

theorem cr_out_func_step {σ : Type} (k : Kconfig) (fuel c : Nat) (o : log_output σ)
    (h : writer_ok k fuel o) :
    ∃ o', cr_out_func k fuel c o = some o' ∧
      writer_step k fuel o o' (if c = 10 then [13, 10] else [c]) := by
  unfold cr_out_func
  by_cases hc : c = 10
  · obtain ⟨o1, h1, w1⟩ := out_func_step k fuel 13 o h
    obtain ⟨o2, h2, w2⟩ := out_func_step k fuel c o1 w1.1
    refine ⟨o2, by simp only [if_pos hc, h1, h2], ?_⟩
    have := writer_step_trans w1 w2
    rw [if_pos hc]
    subst hc
    simpa using this
  · obtain ⟨o1, h1, w1⟩ := out_func_step k fuel c o h
    exact ⟨o1, by simp only [if_neg hc, h1], by rw [if_neg hc]; exact w1⟩

theorem stream_cr_out_func_step {σ : Type} (k : Kconfig) (fuel : Nat) :
    ∀ (text : List Nat) (o : log_output σ), writer_ok k fuel o →
      ∃ o', stream (cr_out_func k fuel) text o = some o' ∧
        writer_step k fuel o o' (cr_expand text) := by
  intro text
  induction text with
  | nil => intro o h; exact ⟨o, rfl, writer_step_refl k fuel o h⟩
  | cons c cs ih =>
    intro o h
    obtain ⟨o1, h1, s1⟩ := cr_out_func_step k fuel c o h
    obtain ⟨o2, h2, s2⟩ := ih o1 s1.1
    refine ⟨o2, by simp only [stream, h1, h2], ?_⟩
    have := writer_step_trans s1 s2
    simpa [cr_expand] using this

theorem final_flush_ok {σ : Type} (k : Kconfig) (fuel : Nat) (o o2 : log_output σ)
    (text : List Nat) (hp : process_ok k fuel o) (w : writer_step k fuel o o2 text) :
    ∃ o3, log_output_flush fuel o2 = some o3 ∧ o3.emitted = o.emitted ++ text ∧
      o3.offset = 0 := by
  obtain ⟨_, hs, hoff, h1, hf⟩ := hp
  obtain ⟨ok2, e2, _, f2, b2, c2⟩ := w
  have hbound : o2.offset ≤ o2.buf.length ∧ o2.offset ≤ fuel := by
    cases hk : k.LOG_MODE_IMMEDIATE with
    | true =>
      have := c2 hk
      rw [this, b2]
      exact ⟨hoff, hf⟩
    | false =>
      rcases ok2 with hi | ⟨_, _, h3, h4⟩
      · rw [hk] at hi; cases hi
      · exact ⟨h3, by omega⟩
  obtain ⟨ctx', new, hrun, _, _, _⟩ :=
    log_output_flush_ok fuel o2 (by rw [f2]; exact hs) hbound.1 h1 hbound.2
  exact ⟨_, hrun, e2, rfl⟩

theorem log_output_process_structured {σ : Type} (k : Kconfig) (x : Externals)
    (clock : Clock) (fuel : Nat) (o : log_output σ) (timestamp : Nat)
    (domain name : Option (List Nat)) (level : Nat) (package : Option (List Nat))
    (data : List Nat) (flags : Nat) (hp : process_ok k fuel o)
    (hc : clock.freq ≠ 0 → clock.timestamp_div ≠ 0) (hl : level ≤ 4)
    (hraw : level ≠ x.LOG_LEVEL_INTERNAL_RAW_STRING)
    (hl1 : flag_set flags LOG_OUTPUT_FLAG_LEVEL = true → 1 ≤ level)
    (hbytes : ∀ b ∈ data, b < 256) (hlen : data.length < 2 ^ 32) :
    ∃ o' op head n,
      prefix_print k x clock fuel o flags false timestamp domain name level = some (op, n) ∧
      op.emitted = o.emitted ++ (head ++ prefix_color_text k flags level ++
        ids_text x (flag_set flags LOG_OUTPUT_FLAG_LEVEL) false domain name level) ∧
      n = (head.length +
        (ids_text x (flag_set flags LOG_OUTPUT_FLAG_LEVEL) false domain name
          level).length) % 2 ^ 32 ∧
      log_output_process k x clock fuel o timestamp domain (Source.of_name name) level
        package data data.length flags = some o' ∧
      o'.emitted = o.emitted ++
        ((head ++ prefix_color_text k flags level ++
            ids_text x (flag_set flags LOG_OUTPUT_FLAG_LEVEL) false domain name level) ++
          payload_text package ++
          (hexdump_lines_spec data (newline_text k flags) (to_signed 32 n).toNat).flatten ++
          postfix_text k flags level) ∧
      o'.offset = 0 := by
  have hlv : level % 2 ^ 8 = level := Nat.mod_eq_of_lt (by norm_num; omega)
  obtain ⟨op, head, n, h1, w1, hn⟩ :=
    prefix_print_parts k x clock fuel o flags false timestamp domain name level hp.1 hc hl hl1
  have s2 : ∃ o2, (match package with
        | some text => stream (out_func k fuel) text op
        | none => some op : Option (log_output σ)) = some o2 ∧
      writer_step k fuel op o2 (payload_text package) := by
    cases package with
    | none => exact ⟨op, rfl, writer_step_refl k fuel op w1.1⟩
    | some text => exact stream_out_func_step k fuel text op w1.1
  obtain ⟨o2, h2, w2⟩ := s2
  obtain ⟨o3, h3, w3⟩ := process_hexdump_step k fuel o2 data n flags w2.1 hbytes hlen
  obtain ⟨o4, h4, w4⟩ := postfix_print_step k fuel o3 flags level w3.1
  have wall := writer_step_trans (writer_step_trans (writer_step_trans w1 w2) w3) w4
  obtain ⟨o5, h5, e5, z5⟩ := final_flush_ok k fuel o o4 _ hp wall
  refine ⟨o5, op, head, n, h1, w1.2.1, hn, ?_, e5, z5⟩
  unfold log_output_process
  simp only [hlv, decide_eq_false hraw, Bool.not_false, if_true]
  cases name with
  | none =>
    simp only [Source.of_name, h1, Option.map_some']
    cases package with
    | none =>
      simp only at h2
      cases h2
      simp only [h3, h4, h5]
    | some text =>
      simp only at h2
      simp only [Bool.false_eq_true, if_false, h2, h3, h4, h5]
  | some nm =>
    simp only [Source.of_name, h1, Option.map_some']
    cases package with
    | none =>
      simp only at h2
      cases h2
      simp only [h3, h4, h5]
    | some text =>
      simp only at h2
      simp only [Bool.false_eq_true, if_false, h2, h3, h4, h5]

theorem log_output_process_raw {σ : Type} (k : Kconfig) (x : Externals)
    (clock : Clock) (fuel : Nat) (o : log_output σ) (timestamp : Nat)
    (domain : Option (List Nat)) (source : Source) (level : Nat)
    (package : Option (List Nat)) (data : List Nat) (flags : Nat)
    (hp : process_ok k fuel o) (hraw : level % 2 ^ 8 = x.LOG_LEVEL_INTERNAL_RAW_STRING)
    (hbytes : ∀ b ∈ data, b < 256) (hlen : data.length < 2 ^ 32) :
    ∃ o', log_output_process k x clock fuel o timestamp domain source level
        package data data.length flags = some o' ∧
      o'.emitted = o.emitted ++
        ((if source = Source.one then payload_text package
            else cr_expand (payload_text package)) ++
          (hexdump_lines_spec data (newline_text k flags) 0).flatten) ∧
      o'.offset = 0 := by
  have s2 : ∃ o2, (match package with
        | some text =>
          if decide (source ≠ Source.one) = true then stream (cr_out_func k fuel) text o
          else stream (out_func k fuel) text o
        | none => some o : Option (log_output σ)) = some o2 ∧
      writer_step k fuel o o2 (if source = Source.one then payload_text package
            else cr_expand (payload_text package)) := by
    cases package with
    | none =>
      refine ⟨o, rfl, ?_⟩
      have := writer_step_refl k fuel o hp.1
      by_cases hs : source = Source.one
      · simpa [hs, payload_text] using this
      · simpa [hs, payload_text, cr_expand] using this
    | some text =>
      by_cases hs : source = Source.one
      · simpa [hs, payload_text] using stream_out_func_step k fuel text o hp.1
      · simpa [hs, payload_text] using stream_cr_out_func_step k fuel text o hp.1
  obtain ⟨o2, h2, w2⟩ := s2
  obtain ⟨o3, h3, w3⟩ := process_hexdump_step k fuel o2 data 0 flags w2.1 hbytes hlen
  have hz : (to_signed 32 0).toNat = 0 := by decide
  rw [hz] at w3
  have wall := writer_step_trans w2 w3
  obtain ⟨o5, h5, e5, z5⟩ := final_flush_ok k fuel o o3 _ hp wall
  refine ⟨o5, ?_, e5, z5⟩
  unfold log_output_process
  simp only [hraw, decide_True, Bool.not_true, Bool.false_eq_true, if_false]
  cases package with
  | none =>
    simp only at h2
    cases h2
    simp only [h3, h5]
  | some text =>
    simp only at h2
    simp only [h2, h3, h5]

theorem digit_char_ne_space (d : Nat) : digit_char d ≠ 32 := by
  unfold digit_char
  split <;> omega

theorem to_signed_toNat_small (n : Nat) (h : n < 2 ^ 31) : (to_signed 32 n).toNat = n := by
  rw [to_signed_small n h]
  simp

theorem hexdump_line_spec_head (data nl : List Nat) (margin line : Nat)
    (hline : line < (data.length + 15) / 16) :
    ∃ b rest, data[16 * line]? = some b ∧
      hexdump_line_spec data nl margin line =
        nl ++ List.replicate margin 32 ++ (digit_char (b / 16) :: rest) := by
  have hidx : 16 * line < data.length := by omega
  have hget : data[16 * line + 0]? = some data[16 * line] := by
    simp [List.getElem?_eq_getElem hidx]
  have hr : List.range 16 = 0 :: List.range' 1 15 := by decide
  refine ⟨data[16 * line],
    [digit_char (data[16 * line] % 16), 32] ++
      (List.range' 1 15).flatMap
        (fun i => hexdump_gap i ++ hexdump_hex_slot_spec data line i) ++
      [124] ++
      (List.range 16).flatMap
        (fun i => hexdump_gap i ++ hexdump_ascii_slot_spec data line i),
    List.getElem?_eq_getElem hidx, ?_⟩
  unfold hexdump_line_spec
  nth_rewrite 1 [hr]
  rw [List.flatMap_cons]
  have h0 : hexdump_gap 0 ++ hexdump_hex_slot_spec data line 0 =
      [digit_char (data[16 * line] / 16), digit_char (data[16 * line] % 16), 32] := by
    simp only [hexdump_gap, hexdump_hex_slot_spec, hget]
    simp
  rw [h0]
  simp only [List.append_assoc, List.cons_append, List.nil_append]

/-- Whatever the sink does, a flush that returns leaves the buffer as it was and the
cursor at 0. -/
theorem log_output_flush_inv {σ : Type} (fuel : Nat) (o o' : log_output σ)
    (h : log_output_flush fuel o = some o') :
    o'.buf = o.buf ∧ o'.offset = 0 ∧ o'.func = o.func := by
  unfold log_output_flush at h
  by_cases hlt : o.buf.length < o.offset
  · simp only [if_pos hlt] at h
    cases h
  · simp only [if_neg hlt] at h
    cases hb : buffer_write o.func fuel (o.buf.take o.offset) o.ctx o.calls with
    | none => simp [hb] at h
    | some r =>
      simp only [hb] at h
      cases h
      exact ⟨rfl, rfl, rfl⟩

/-- Whatever the sink does, an `out_func` that returns from a cursor within the buffer
leaves the cursor within the buffer, and in buffered mode has stored its byte at an
index inside the buffer. -/
theorem out_func_inv {σ : Type} (k : Kconfig) (fuel : Nat) (c : Nat) (o o' : log_output σ)
    (hinv : o.offset ≤ o.buf.length) (h : out_func k fuel c o = some o') :
    o'.buf.length = o.buf.length ∧ o'.offset ≤ o'.buf.length ∧
      (k.LOG_MODE_IMMEDIATE = false →
        ∃ idx, idx < o.buf.length ∧ o'.buf = o.buf.set idx (c % 256) ∧
          o'.offset = idx + 1) := by
  cases hk : k.LOG_MODE_IMMEDIATE with
  | true =>
    rw [out_func_immediate k fuel c o hk] at h
    cases h
    exact ⟨rfl, hinv, fun hf => by cases hf⟩
  | false =>
    unfold out_func at h
    simp only [hk, Bool.false_eq_true, if_false, log_output.size] at h
    by_cases hfull : o.offset = o.buf.length
    · simp only [if_pos hfull] at h
      cases hfl : log_output_flush fuel { o with emitted := o.emitted ++ [c] } with
      | none => simp [hfl] at h
      | some o1 =>
        simp only [hfl] at h
        obtain ⟨a1, a2, _⟩ := log_output_flush_inv fuel _ o1 hfl
        simp only at a1
        by_cases hidx : o1.offset < o1.buf.length
        · simp only [if_pos hidx] at h
          cases h
          rw [a1] at hidx
          rw [a2] at hidx
          refine ⟨by simp [a1], by simp [a1, a2]; omega, fun _ => ⟨0, hidx, ?_, ?_⟩⟩
          · simp [a1, a2]
          · simp [a2]
        · simp only [if_neg hidx] at h
          cases h
    · simp only [if_neg hfull] at h
      by_cases hidx : o.offset < o.buf.length
      · simp only [if_pos hidx] at h
        cases h
        exact ⟨by simp, by simp; omega, fun _ => ⟨o.offset, hidx, rfl, rfl⟩⟩
      · simp only [if_neg hidx] at h
        cases h

/-- On a sink that keeps its write contract, with a capacity of at least 1 and fuel for
a flush of the whole buffer, `out_func` returns, from every cursor within the buffer. -/
theorem out_func_total {σ : Type} (k : Kconfig) (fuel : Nat) (c : Nat) (o : log_output σ)
    (hs : sink_accepts o.func) (hcap : 1 ≤ o.buf.length) (hinv : o.offset ≤ o.buf.length)
    (hf : o.buf.length ≤ fuel) :
    ∃ o', out_func k fuel c o = some o' ∧ o'.buf.length = o.buf.length ∧
      o'.offset ≤ o'.buf.length ∧ o'.func = o.func := by
  cases hk : k.LOG_MODE_IMMEDIATE with
  | true => exact ⟨_, out_func_immediate k fuel c o hk, rfl, hinv, rfl⟩
  | false =>
    by_cases hfull : o.offset = o.buf.length
    · obtain ⟨ctx', new, hrun, _, _, _⟩ := out_func_full k fuel c o hk hs hfull hcap hf
      exact ⟨_, hrun, by simp, by simpa using hcap, rfl⟩
    · have hroom : o.offset < o.buf.length := by omega
      exact ⟨_, out_func_room k fuel c o hk hroom, by simp, by simpa using hroom, rfl⟩

/-- With capacity 0 the buffered `out_func` has no defined result: after the flush the
byte would be stored at index 0, outside the buffer.  The writer is meant for a buffer
of at least one byte. -/
theorem out_func_zero_capacity :
    out_func kconfig_plain 8 65 (fresh_output full_sink 0) = none :=
  rfl

/-! ## The claims -/

/-- C1: for every frequency `f` with `0 < f < 2 ^ 32`, configuring the clock with `f`
succeeds, the stored divisor is a power of two, the stored frequency is `f / divisor`
and `f / divisor` is at most 1,000,000. -/
theorem C1_freq_set_divisor_pow2 (k : Kconfig) (f : Nat) (h0 : 0 < f) (h1 : f < 2 ^ 32) :
    ∃ c, log_output_timestamp_freq_set k f = some c ∧
      (∃ n, c.timestamp_div = 2 ^ n) ∧ f / c.timestamp_div ≤ 1000000 ∧
      c.freq = f / c.timestamp_div := by
  have _ := h0
  obtain ⟨n, hn, hle, _⟩ := freq_set_some k f
  rw [Nat.mod_eq_of_lt h1] at hn hle
  exact ⟨_, hn, ⟨n, rfl⟩, hle, rfl⟩

theorem C1_freq_set_divisor_pow2_witness :
    (0 < 32768000 ∧ 32768000 < 2 ^ 32) ∧
    ∃ c, log_output_timestamp_freq_set ⟨false, false, false, false, false, false, false, true⟩
        32768000 = some c ∧
      (∃ n, c.timestamp_div = 2 ^ n) ∧ 32768000 / c.timestamp_div ≤ 1000000 ∧
      c.freq = 32768000 / c.timestamp_div :=
  ⟨by decide, C1_freq_set_divisor_pow2 _ 32768000 (by decide) (by decide)⟩

/-- C2 (as stated, refuted): at `2 ^ 64 - 1` seconds the calendar algorithm does not
return a date whose day number since 1970-01-01 is `floor(seconds / 86400)`: the year
is a 32-bit counter and the instant lies beyond year `2 ^ 32`. -/
theorem C2_u64_max_not_gregorian :
    ¬ ∃ r, get_YMD_from_seconds (2 ^ 64 - 1) = some r ∧
      days_from_epoch r.year r.month r.day = (2 ^ 64 - 1) / 86400 := by
  rintro ⟨r, hr, hd⟩
  obtain ⟨h1, h2, h3⟩ := get_YMD_fields_lt _ r hr
  have a := days_before_year_le r.year
  have b := days_before_month_le r.year r.month
  unfold days_from_epoch at hd
  norm_num at hd h1 h2 h3
  omega

/-- C2 (amended): for every instant before 1 January of year `2 ^ 32`
(`seconds < 1568703873082 * 86400`), the calendar algorithm returns a date of the
Gregorian calendar (month 1 to 12, day 1 to the length of that month under the leap
rule) whose number of whole days since 1970-01-01 is `floor(seconds / 86400)`. -/
theorem C2_get_YMD_gregorian (seconds : Nat)
    (h : seconds < days_before_year (2 ^ 32) * 86400) :
    ∃ r, get_YMD_from_seconds seconds = some r ∧
      gregorian_date r.year r.month r.day ∧
      days_from_epoch r.year r.month r.day = seconds / 86400 :=
  get_YMD_correct seconds (by rw [Nat.div_lt_iff_lt_mul (by norm_num)]; exact h)
    (lt_trans h days_before_year_bound)

theorem C2_get_YMD_gregorian_witness :
    ∃ r, get_YMD_from_seconds 4107542400 = some r ∧
      gregorian_date r.year r.month r.day ∧
      days_from_epoch r.year r.month r.day = 4107542400 / 86400 :=
  C2_get_YMD_gregorian 4107542400 (by norm_num [days_before_year, leap_years_before])

/-- C3 (as stated, refuted): with the clock configured to 1 tick per second, the
syslog rendering of tick 951782400 is not exactly `"2000-02-29T00:00:00.000000Z"`. -/
theorem C3_syslog_rendering_not_bare :
    log_output_timestamp_freq_set kconfig_net 1 = some ⟨1, 1⟩ ∧
      (timestamp_print kconfig_net externals_plain ⟨1, 1⟩ 64 (fresh_output full_sink 64)
        LOG_OUTPUT_FLAG_FORMAT_SYSLOG 951782400).map (fun r => r.1.emitted) ≠
        some (str "2000-02-29T00:00:00.000000Z") := by
  decide

/-- C3 (amended): under syslog formatting on the dependency-free calendar path, with
the clock configured to 1 tick per second, the timestamp of tick 951782400
(2000-02-29T00:00:00) renders exactly `"2000-02-29T00:00:00.000000Z "`, the timestamp
followed by one space, and the returned length is 28. -/
theorem C3_syslog_leap_day {σ : Type} (k : Kconfig) (x : Externals) (clock : Clock)
    (fuel : Nat) (o : log_output σ) (flags : Nat)
    (hnet : k.LOG_BACKEND_NET = true) (hnl : k.NEWLIB_LIBC = false)
    (hflag : flag_set flags LOG_OUTPUT_FLAG_FORMAT_SYSLOG = true)
    (hc : log_output_timestamp_freq_set k 1 = some clock) (hw : writer_ok k fuel o) :
    ∃ o', timestamp_print k x clock fuel o flags 951782400 = some (o', 28) ∧
      o'.emitted = o.emitted ++ str "2000-02-29T00:00:00.000000Z " ∧
      writer_ok k fuel o' := by
  rw [freq_set_one] at hc
  cases hc
  rw [timestamp_print_leap_day k x fuel o flags hnet hnl hflag]
  obtain ⟨o', h1, h2⟩ :=
    print_formatted_step k fuel o (str "2000-02-29T00:00:00.000000Z ") hw
  exact ⟨o', h1, h2.2.1, h2.1⟩

theorem C3_syslog_leap_day_witness :
    ∃ o', timestamp_print kconfig_net externals_plain ⟨1, 1⟩ 8 (fresh_output byte_sink 8)
        LOG_OUTPUT_FLAG_FORMAT_SYSLOG 951782400 = some (o', 28) ∧
      o'.emitted = (fresh_output byte_sink 8).emitted ++ str "2000-02-29T00:00:00.000000Z " ∧
      writer_ok kconfig_net 8 o' :=
  C3_syslog_leap_day kconfig_net externals_plain ⟨1, 1⟩ 8 (fresh_output byte_sink 8)
    LOG_OUTPUT_FLAG_FORMAT_SYSLOG rfl rfl (by decide) (by decide)
    (Or.inr ⟨byte_sink_accepts, by decide, by decide, by decide⟩)

/-- C4: for a clock established by the configuration call with a nonzero stored
frequency, the conversion to microseconds returns a value for every 32-bit tick count
and is monotonically non-decreasing in the ticks. -/
theorem C4_to_us_monotone (k : Kconfig) (f : Nat) (c : Clock)
    (hc : log_output_timestamp_freq_set k f = some c) (hf : c.freq ≠ 0)
    (t1 t2 : Nat) (h12 : t1 ≤ t2) (ht : t2 < 2 ^ 32) :
    ∃ u1 u2, log_output_timestamp_to_us c t1 = some u1 ∧
      log_output_timestamp_to_us c t2 = some u2 ∧ u1 ≤ u2 := by
  have hd := configured_div_ne_zero k f c hc
  refine ⟨_, _, to_us_exact c hd hf t1 (by omega), to_us_exact c hd hf t2 ht, ?_⟩
  exact Nat.div_le_div_right (Nat.mul_le_mul_right _ (Nat.div_le_div_right h12))

theorem C4_to_us_monotone_witness :
    ∃ u1 u2, log_output_timestamp_to_us ⟨1000000, 32⟩ 1000 = some u1 ∧
      log_output_timestamp_to_us ⟨1000000, 32⟩ 4000000000 = some u2 ∧ u1 ≤ u2 :=
  C4_to_us_monotone ⟨false, true, false, false, false, false, false, true⟩ 32000000
    ⟨1000000, 32⟩ (by decide) (by decide) 1000 4000000000 (by decide) (by decide)

/-- C5: for a clock established by the configuration call with a nonzero stored
frequency and every tick count of the 32-bit parameter, the conversion returns exactly
`floor(floor(ticks / divisor) * 1000000 / frequency)`: the 64-bit product does not
wrap, whichever width the timestamp type has. -/
theorem C5_to_us_exact (k : Kconfig) (f : Nat) (c : Clock)
    (hc : log_output_timestamp_freq_set k f = some c) (hf : c.freq ≠ 0)
    (t : Nat) (ht : t < 2 ^ 32) :
    log_output_timestamp_to_us c t = some (t / c.timestamp_div * 1000000 / c.freq) ∧
      (t / c.timestamp_div) * 1000000 < 2 ^ 64 := by
  have hd := configured_div_ne_zero k f c hc
  refine ⟨to_us_exact c hd hf t ht, ?_⟩
  have h2 : t / c.timestamp_div ≤ t := Nat.div_le_self _ _
  norm_num at ht ⊢; omega

theorem C5_to_us_exact_witness :
    log_output_timestamp_to_us ⟨1000000, 4096⟩ 4294967295 =
        some (4294967295 / 4096 * 1000000 / 1000000) ∧
      (4294967295 / 4096) * 1000000 < 2 ^ 64 :=
  C5_to_us_exact ⟨false, true, false, false, false, false, false, true⟩ 4096000000
    ⟨1000000, 4096⟩ (by decide) (by decide) 4294967295 (by decide)

/-- C6: for every data span of `L` bytes (`L` below `2 ^ 32`, the width of the length
parameter of the hexdump) handed to the hexdump step of `log_output_process`, the
output is the concatenation of exactly `ceil(L / 16)` lines (none for `L = 0`), each
made of the newline, the margin, 16 hex slots, a bar and 16 ASCII slots; byte `i`
fills slot `i mod 16` of line `i div 16`, as two lowercase hex digits and a space in
the hex block and as itself (printable) or `.` in the ASCII block; slots past the
data are blank. -/
theorem C6_hexdump_lines {σ : Type} (k : Kconfig) (fuel : Nat) (o : log_output σ)
    (data : List Nat) (prefix_offset flags : Nat) (hw : writer_ok k fuel o)
    (hbytes : ∀ b ∈ data, b < 256) (hlen : data.length < 2 ^ 32) :
    ∃ o', process_hexdump k fuel o data data.length prefix_offset flags = some o' ∧
      o'.emitted = o.emitted ++
        (hexdump_lines_spec data (newline_text k flags)
          (to_signed 32 prefix_offset).toNat).flatten ∧
      (hexdump_lines_spec data (newline_text k flags)
          (to_signed 32 prefix_offset).toNat).length = (data.length + 15) / 16 ∧
      (∀ i, i < data.length → ∃ b, data[i]? = some b ∧
        hexdump_hex_slot_spec data (i / 16) (i % 16) =
          [digit_char (b / 16), digit_char (b % 16), 32] ∧
        hexdump_ascii_slot_spec data (i / 16) (i % 16) =
          [if 32 ≤ b ∧ b ≤ 126 then b else 46]) ∧
      (∀ line slot, data.length ≤ 16 * line + slot →
        hexdump_hex_slot_spec data line slot = [32, 32, 32] ∧
        hexdump_ascii_slot_spec data line slot = [32]) ∧
      (∀ d, d < 16 → (str "0123456789abcdef")[d]? = some (digit_char d)) := by
  have hrun : ∃ o', process_hexdump k fuel o data data.length prefix_offset flags = some o' ∧
      writer_step k fuel o o' (hexdump_lines_spec data (newline_text k flags)
          (to_signed 32 prefix_offset).toNat).flatten := by
    unfold process_hexdump
    by_cases h0 : data.length ≠ 0
    · rw [if_pos h0]
      unfold log_msg_hexdump
      rw [Nat.mod_eq_of_lt hlen]
      exact log_msg_hexdump_loop_step k fuel (to_signed 32 prefix_offset) flags
        (data.length + 1) o data hw (by omega) (by omega) hbytes
    · rw [if_neg h0]
      have hnil : data = [] := List.length_eq_zero.1 (by omega)
      subst hnil
      exact ⟨o, rfl, by simpa [hexdump_lines_spec] using writer_step_refl k fuel o hw⟩
  obtain ⟨o', h1, s1⟩ := hrun
  refine ⟨o', h1, s1.2.1, by simp [hexdump_lines_spec], ?_, ?_, ?_⟩
  · intro i hi
    have hidx : 16 * (i / 16) + i % 16 = i := Nat.div_add_mod i 16
    refine ⟨data[i], List.getElem?_eq_getElem hi, ?_, ?_⟩
    · simp only [hexdump_hex_slot_spec, hidx, List.getElem?_eq_getElem hi]
    · simp only [hexdump_ascii_slot_spec, hidx, List.getElem?_eq_getElem hi]
  · intro line slot hpast
    have hget : data[16 * line + slot]? = none := List.getElem?_eq_none hpast
    simp only [hexdump_hex_slot_spec, hexdump_ascii_slot_spec, hget, and_self]
  · intro d hd
    interval_cases d <;> rfl

theorem C6_hexdump_lines_witness :
    ∃ o', process_hexdump kconfig_plain 8 (fresh_output byte_sink 8)
        [0, 72, 105, 255, 126, 127, 10, 32, 1, 2, 3, 4, 5, 6, 7, 8, 9]
        [0, 72, 105, 255, 126, 127, 10, 32, 1, 2, 3, 4, 5, 6, 7, 8, 9].length 4 0 = some o' ∧
      o'.emitted = (fresh_output byte_sink 8).emitted ++
        (hexdump_lines_spec [0, 72, 105, 255, 126, 127, 10, 32, 1, 2, 3, 4, 5, 6, 7, 8, 9]
          (newline_text kconfig_plain 0) (to_signed 32 4).toNat).flatten ∧
      (hexdump_lines_spec [0, 72, 105, 255, 126, 127, 10, 32, 1, 2, 3, 4, 5, 6, 7, 8, 9]
          (newline_text kconfig_plain 0) (to_signed 32 4).toNat).length =
        ([0, 72, 105, 255, 126, 127, 10, 32, 1, 2, 3, 4, 5, 6, 7, 8, 9].length + 15) / 16 ∧
      (∀ i, i < [0, 72, 105, 255, 126, 127, 10, 32, 1, 2, 3, 4, 5, 6, 7, 8, 9].length →
        ∃ b, [0, 72, 105, 255, 126, 127, 10, 32, 1, 2, 3, 4, 5, 6, 7, 8, 9][i]? = some b ∧
        hexdump_hex_slot_spec [0, 72, 105, 255, 126, 127, 10, 32, 1, 2, 3, 4, 5, 6, 7, 8, 9]
            (i / 16) (i % 16) = [digit_char (b / 16), digit_char (b % 16), 32] ∧
        hexdump_ascii_slot_spec [0, 72, 105, 255, 126, 127, 10, 32, 1, 2, 3, 4, 5, 6, 7, 8, 9]
            (i / 16) (i % 16) = [if 32 ≤ b ∧ b ≤ 126 then b else 46]) ∧
      (∀ line slot,
        [0, 72, 105, 255, 126, 127, 10, 32, 1, 2, 3, 4, 5, 6, 7, 8, 9].length ≤
          16 * line + slot →
        hexdump_hex_slot_spec [0, 72, 105, 255, 126, 127, 10, 32, 1, 2, 3, 4, 5, 6, 7, 8, 9]
            line slot = [32, 32, 32] ∧
        hexdump_ascii_slot_spec [0, 72, 105, 255, 126, 127, 10, 32, 1, 2, 3, 4, 5, 6, 7, 8, 9]
            line slot = [32]) ∧
      (∀ d, d < 16 → (str "0123456789abcdef")[d]? = some (digit_char d)) :=
  C6_hexdump_lines kconfig_plain 8 (fresh_output byte_sink 8)
    [0, 72, 105, 255, 126, 127, 10, 32, 1, 2, 3, 4, 5, 6, 7, 8, 9] 4 0
    (Or.inr ⟨byte_sink_accepts, by decide, by decide, by decide⟩) (by decide) (by decide)

/-- C8: starting from `0 <= cursor <= capacity`, for every sink, whenever `out_func`,
`cr_out_func` or `log_output_flush` returns, the capacity is unchanged and
`0 <= cursor <= capacity` holds again; in buffered mode the byte of `out_func` is
stored at an index below the capacity, with the cursor one past it; after a flush the
cursor is 0 and the buffer is unchanged.  On a sink that keeps its write contract,
with a capacity of at least 1 and fuel for a flush of the whole buffer, each of the
three operations does return. -/
theorem C8_cursor_invariant {σ : Type} (k : Kconfig) (fuel : Nat) (o : log_output σ)
    (hinv : o.offset ≤ o.size) (c : Nat) :
    (∀ o', out_func k fuel c o = some o' → o'.size = o.size ∧ o'.offset ≤ o'.size ∧
      (k.LOG_MODE_IMMEDIATE = false →
        ∃ idx, idx < o.size ∧ o'.buf = o.buf.set idx (c % 256) ∧ o'.offset = idx + 1)) ∧
    (∀ o', cr_out_func k fuel c o = some o' → o'.size = o.size ∧ o'.offset ≤ o'.size) ∧
    (∀ o', log_output_flush fuel o = some o' → o'.size = o.size ∧ o'.offset = 0 ∧
      o'.buf = o.buf) ∧
    (sink_accepts o.func → 1 ≤ o.size → o.size ≤ fuel →
      (∃ o', out_func k fuel c o = some o') ∧ (∃ o', cr_out_func k fuel c o = some o') ∧
      (∃ o', log_output_flush fuel o = some o')) := by
  unfold log_output.size at *
  refine ⟨?_, ?_, ?_, ?_⟩
  · intro o' h
    exact out_func_inv k fuel c o o' hinv h
  · intro o' h
    unfold cr_out_func at h
    by_cases hc : c = 10
    · simp only [if_pos hc] at h
      cases h1 : out_func k fuel 13 o with
      | none => simp [h1] at h
      | some o1 =>
        simp only [h1] at h
        obtain ⟨a1, a2, _⟩ := out_func_inv k fuel 13 o o1 hinv h1
        obtain ⟨b1, b2, _⟩ := out_func_inv k fuel c o1 o' a2 h
        exact ⟨by omega, b2⟩
    · simp only [if_neg hc] at h
      obtain ⟨b1, b2, _⟩ := out_func_inv k fuel c o o' hinv h
      exact ⟨b1, b2⟩
  · intro o' h
    obtain ⟨a1, a2, _⟩ := log_output_flush_inv fuel o o' h
    exact ⟨by rw [a1], a2, a1⟩
  · intro hs hcap hf
    obtain ⟨o1, h1, _, _, _⟩ := out_func_total k fuel c o hs hcap hinv hf
    refine ⟨⟨o1, h1⟩, ?_, ?_⟩
    · unfold cr_out_func
      by_cases hc : c = 10
      · obtain ⟨o2, g1, g2, g3, g4⟩ := out_func_total k fuel 13 o hs hcap hinv hf
        obtain ⟨o3, e1, _, _, _⟩ :=
          out_func_total k fuel c o2 (by rw [g4]; exact hs) (by omega) g3 (by omega)
        exact ⟨o3, by simp only [if_pos hc, g1, e1]⟩
      · exact ⟨o1, by simp only [if_neg hc, h1]⟩
    · obtain ⟨ctx', new, hrun, _, _, _⟩ :=
        log_output_flush_ok fuel o hs hinv (by omega) (by omega)
      exact ⟨_, hrun⟩

theorem C8_cursor_invariant_witness :
    ((∀ o', out_func kconfig_plain 4 10 (fresh_output byte_sink 2) = some o' →
        o'.size = (fresh_output byte_sink 2).size ∧ o'.offset ≤ o'.size ∧
        (kconfig_plain.LOG_MODE_IMMEDIATE = false →
          ∃ idx, idx < (fresh_output byte_sink 2).size ∧
            o'.buf = (fresh_output byte_sink 2).buf.set idx (10 % 256) ∧
            o'.offset = idx + 1)) ∧
      (∀ o', cr_out_func kconfig_plain 4 10 (fresh_output byte_sink 2) = some o' →
        o'.size = (fresh_output byte_sink 2).size ∧ o'.offset ≤ o'.size) ∧
      (∀ o', log_output_flush 4 (fresh_output byte_sink 2) = some o' →
        o'.size = (fresh_output byte_sink 2).size ∧ o'.offset = 0 ∧
        o'.buf = (fresh_output byte_sink 2).buf) ∧
      (sink_accepts (fresh_output byte_sink 2).func → 1 ≤ (fresh_output byte_sink 2).size →
        (fresh_output byte_sink 2).size ≤ 4 →
        (∃ o', out_func kconfig_plain 4 10 (fresh_output byte_sink 2) = some o') ∧
        (∃ o', cr_out_func kconfig_plain 4 10 (fresh_output byte_sink 2) = some o') ∧
        (∃ o', log_output_flush 4 (fresh_output byte_sink 2) = some o'))) ∧
    ((∃ o', out_func kconfig_plain 4 10 (fresh_output byte_sink 2) = some o') ∧
      (∃ o', cr_out_func kconfig_plain 4 10 (fresh_output byte_sink 2) = some o') ∧
      (∃ o', log_output_flush 4 (fresh_output byte_sink 2) = some o')) :=
  ⟨C8_cursor_invariant kconfig_plain 4 (fresh_output byte_sink 2) (by decide) 10,
    (C8_cursor_invariant kconfig_plain 4 (fresh_output byte_sink 2) (by decide) 10).2.2.2
      byte_sink_accepts (by decide) (by decide)⟩

/-- C10 (as stated, refuted): with COLORS and LEVEL set, severity err and source `src`,
`prefix_print` returns 11 while it emitted 18 bytes to the writer: the 7 bytes of the
red escape are emitted but not counted. -/
theorem C10_color_escape_not_counted :
    (prefix_print kconfig_plain externals_plain Clock.initial 32 (fresh_output full_sink 32)
        (LOG_OUTPUT_FLAG_COLORS + LOG_OUTPUT_FLAG_LEVEL) false 0 none (some (str "src"))
        LOG_LEVEL_ERR).map (fun r => (r.2, r.1.emitted.length, r.1.emitted)) =
      some (11, 18, str "\x1b[1;31m<err> src: ") := by
  decide

/-- C10 (amended): for every combination of flags, timestamp, domain, source and
severity (err, wrn, inf, dbg, or none with the LEVEL flag clear), on a writer that can
take the bytes and a clock that is unconfigured or configured, `prefix_print` returns,
and the value returned equals the number of bytes the prefix emitted to the writer less
the bytes of the colour escape (taken modulo `2 ^ 32`, the width of the result); the
escape is empty when COLORS is clear or under syslog framing, and then the value
returned is the number of bytes emitted. -/
theorem C10_prefix_length {σ : Type} (k : Kconfig) (x : Externals) (clock : Clock)
    (fuel : Nat) (o : log_output σ) (flags : Nat) (func_on : Bool) (timestamp : Nat)
    (domain source : Option (List Nat)) (level : Nat) (hw : writer_ok k fuel o)
    (hc : clock.freq ≠ 0 → clock.timestamp_div ≠ 0) (hl : level ≤ 4)
    (hl1 : flag_set flags LOG_OUTPUT_FLAG_LEVEL = true → 1 ≤ level) :
    ∃ o' text n,
      prefix_print k x clock fuel o flags func_on timestamp domain source level =
        some (o', n) ∧
      o'.emitted = o.emitted ++ text ∧
      (prefix_color_text k flags level).length ≤ text.length ∧
      n = (text.length - (prefix_color_text k flags level).length) % 2 ^ 32 ∧
      (text.length < 2 ^ 32 → n + (prefix_color_text k flags level).length = text.length) ∧
      (flag_set flags LOG_OUTPUT_FLAG_COLORS = false ∨
          (k.LOG_BACKEND_NET && flag_set flags LOG_OUTPUT_FLAG_FORMAT_SYSLOG) = true →
        prefix_color_text k flags level = [] ∧ n = text.length % 2 ^ 32) := by
  obtain ⟨o', text, n, h1, w, hle, hn⟩ :=
    prefix_print_step k x clock fuel o flags func_on timestamp domain source level hw hc hl hl1
  refine ⟨o', text, n, h1, w.2.1, hle, hn, ?_, ?_⟩
  · intro hsmall
    rw [hn, Nat.mod_eq_of_lt (by omega)]
    omega
  · intro hcase
    have hnil : prefix_color_text k flags level = [] := by
      unfold prefix_color_text color_text
      rcases hcase with hcol | hsys
      · simp [hcol]
      · simp [hsys]
    refine ⟨hnil, ?_⟩
    rw [hn, hnil]
    simp

theorem C10_prefix_length_witness :
    ∃ o' text n,
      prefix_print kconfig_plain externals_plain Clock.initial 8 (fresh_output byte_sink 8)
          (LOG_OUTPUT_FLAG_COLORS + LOG_OUTPUT_FLAG_LEVEL) false 0 none (some (str "src"))
          LOG_LEVEL_ERR = some (o', n) ∧
      o'.emitted = (fresh_output byte_sink 8).emitted ++ text ∧
      (prefix_color_text kconfig_plain (LOG_OUTPUT_FLAG_COLORS + LOG_OUTPUT_FLAG_LEVEL)
          LOG_LEVEL_ERR).length ≤ text.length ∧
      n = (text.length - (prefix_color_text kconfig_plain
          (LOG_OUTPUT_FLAG_COLORS + LOG_OUTPUT_FLAG_LEVEL) LOG_LEVEL_ERR).length) % 2 ^ 32 ∧
      (text.length < 2 ^ 32 → n + (prefix_color_text kconfig_plain
          (LOG_OUTPUT_FLAG_COLORS + LOG_OUTPUT_FLAG_LEVEL) LOG_LEVEL_ERR).length =
        text.length) ∧
      (flag_set (LOG_OUTPUT_FLAG_COLORS + LOG_OUTPUT_FLAG_LEVEL) LOG_OUTPUT_FLAG_COLORS = false ∨
          (kconfig_plain.LOG_BACKEND_NET &&
            flag_set (LOG_OUTPUT_FLAG_COLORS + LOG_OUTPUT_FLAG_LEVEL)
              LOG_OUTPUT_FLAG_FORMAT_SYSLOG) = true →
        prefix_color_text kconfig_plain (LOG_OUTPUT_FLAG_COLORS + LOG_OUTPUT_FLAG_LEVEL)
          LOG_LEVEL_ERR = [] ∧ n = text.length % 2 ^ 32) :=
  C10_prefix_length kconfig_plain externals_plain Clock.initial 8 (fresh_output byte_sink 8)
    (LOG_OUTPUT_FLAG_COLORS + LOG_OUTPUT_FLAG_LEVEL) false 0 none (some (str "src"))
    LOG_LEVEL_ERR (Or.inr ⟨byte_sink_accepts, by decide, by decide, by decide⟩)
    (by decide) (by decide) (by decide)

/-- C11: for every structured record with non-empty raw data, `log_output_process`
emits the prefix, the payload, the hexdump lines and the postfix; the margin of the
hexdump is the length `prefix_print` returned (handed on as an `int`, so for a length
below `2 ^ 31`), and every line is its newline sequence, exactly that many spaces, then
the first hex digit of the first slot.  On the raw-string path the margin is 0. -/
theorem C11_hexdump_margin {σ : Type} (k : Kconfig) (x : Externals) (clock : Clock)
    (fuel : Nat) (o : log_output σ) (timestamp : Nat) (domain name : Option (List Nat))
    (level : Nat) (package : Option (List Nat)) (data : List Nat) (flags : Nat)
    (hp : process_ok k fuel o) (hc : clock.freq ≠ 0 → clock.timestamp_div ≠ 0)
    (hbytes : ∀ b ∈ data, b < 256) (hne : 1 ≤ data.length) (hlen : data.length < 2 ^ 32) :
    (level ≤ 4 → level ≠ x.LOG_LEVEL_INTERNAL_RAW_STRING →
      (flag_set flags LOG_OUTPUT_FLAG_LEVEL = true → 1 ≤ level) →
      ∃ o' op n pre,
        prefix_print k x clock fuel o flags false timestamp domain name level =
          some (op, n) ∧
        op.emitted = o.emitted ++ pre ∧
        log_output_process k x clock fuel o timestamp domain (Source.of_name name) level
          package data data.length flags = some o' ∧
        o'.emitted = o.emitted ++
          (pre ++ payload_text package ++
            (hexdump_lines_spec data (newline_text k flags)
              (to_signed 32 n).toNat).flatten ++
            postfix_text k flags level) ∧
        (n < 2 ^ 31 → (to_signed 32 n).toNat = n ∧
          ∀ line, line < (data.length + 15) / 16 →
            ∃ b rest, data[16 * line]? = some b ∧ digit_char (b / 16) ≠ 32 ∧
              hexdump_line_spec data (newline_text k flags) n line =
                newline_text k flags ++ List.replicate n 32 ++
                  (digit_char (b / 16) :: rest))) ∧
    (∀ source, level % 2 ^ 8 = x.LOG_LEVEL_INTERNAL_RAW_STRING →
      ∃ o', log_output_process k x clock fuel o timestamp domain source level
          package data data.length flags = some o' ∧
        o'.emitted = o.emitted ++
          ((if source = Source.one then payload_text package
              else cr_expand (payload_text package)) ++
            (hexdump_lines_spec data (newline_text k flags) 0).flatten) ∧
        ∀ line, line < (data.length + 15) / 16 →
          ∃ b rest, data[16 * line]? = some b ∧ digit_char (b / 16) ≠ 32 ∧
            hexdump_line_spec data (newline_text k flags) 0 line =
              newline_text k flags ++ List.replicate 0 32 ++
                (digit_char (b / 16) :: rest)) := by
  have _ := hne
  have hhead : ∀ margin line, line < (data.length + 15) / 16 →
      ∃ b rest, data[16 * line]? = some b ∧ digit_char (b / 16) ≠ 32 ∧
        hexdump_line_spec data (newline_text k flags) margin line =
          newline_text k flags ++ List.replicate margin 32 ++
            (digit_char (b / 16) :: rest) := by
    intro margin line hline
    obtain ⟨b, rest, hb, hl⟩ :=
      hexdump_line_spec_head data (newline_text k flags) margin line hline
    exact ⟨b, rest, hb, digit_char_ne_space _, hl⟩
  refine ⟨?_, ?_⟩
  · intro hl hraw hl1
    obtain ⟨o', op, head, n, h1, e1, _, h2, e2, _⟩ :=
      log_output_process_structured k x clock fuel o timestamp domain name level package
        data flags hp hc hl hraw hl1 hbytes hlen
    refine ⟨o', op, n, _, h1, e1, h2, e2, ?_⟩
    intro hn
    exact ⟨to_signed_toNat_small n hn, hhead n⟩
  · intro source hraw
    obtain ⟨o', h2, e2, _⟩ :=
      log_output_process_raw k x clock fuel o timestamp domain source level package
        data flags hp hraw hbytes hlen
    exact ⟨o', h2, e2, hhead 0⟩

theorem C11_hexdump_margin_witness :
    (LOG_LEVEL_ERR ≤ 4 →
      LOG_LEVEL_ERR ≠ externals_plain.LOG_LEVEL_INTERNAL_RAW_STRING →
      (flag_set LOG_OUTPUT_FLAG_LEVEL LOG_OUTPUT_FLAG_LEVEL = true → 1 ≤ LOG_LEVEL_ERR) →
      ∃ o' op n pre,
        prefix_print kconfig_plain externals_plain Clock.initial 8 (fresh_output byte_sink 8)
            LOG_OUTPUT_FLAG_LEVEL false 0 none (some (str "src")) LOG_LEVEL_ERR =
          some (op, n) ∧
        op.emitted = (fresh_output byte_sink 8).emitted ++ pre ∧
        log_output_process kconfig_plain externals_plain Clock.initial 8
          (fresh_output byte_sink 8) 0 none (Source.of_name (some (str "src")))
          LOG_LEVEL_ERR (some (str "hi")) [1, 2, 255] [1, 2, 255].length
          LOG_OUTPUT_FLAG_LEVEL = some o' ∧
        o'.emitted = (fresh_output byte_sink 8).emitted ++
          (pre ++ payload_text (some (str "hi")) ++
            (hexdump_lines_spec [1, 2, 255] (newline_text kconfig_plain LOG_OUTPUT_FLAG_LEVEL)
              (to_signed 32 n).toNat).flatten ++
            postfix_text kconfig_plain LOG_OUTPUT_FLAG_LEVEL LOG_LEVEL_ERR) ∧
        (n < 2 ^ 31 → (to_signed 32 n).toNat = n ∧
          ∀ line, line < ([1, 2, 255].length + 15) / 16 →
            ∃ b rest, [1, 2, 255][16 * line]? = some b ∧ digit_char (b / 16) ≠ 32 ∧
              hexdump_line_spec [1, 2, 255] (newline_text kconfig_plain LOG_OUTPUT_FLAG_LEVEL)
                  n line =
                newline_text kconfig_plain LOG_OUTPUT_FLAG_LEVEL ++ List.replicate n 32 ++
                  (digit_char (b / 16) :: rest))) ∧
    (∀ source, LOG_LEVEL_ERR % 2 ^ 8 = externals_plain.LOG_LEVEL_INTERNAL_RAW_STRING →
      ∃ o', log_output_process kconfig_plain externals_plain Clock.initial 8
          (fresh_output byte_sink 8) 0 none source LOG_LEVEL_ERR (some (str "hi"))
          [1, 2, 255] [1, 2, 255].length LOG_OUTPUT_FLAG_LEVEL = some o' ∧
        o'.emitted = (fresh_output byte_sink 8).emitted ++
          ((if source = Source.one then payload_text (some (str "hi"))
              else cr_expand (payload_text (some (str "hi")))) ++
            (hexdump_lines_spec [1, 2, 255]
              (newline_text kconfig_plain LOG_OUTPUT_FLAG_LEVEL) 0).flatten) ∧
        ∀ line, line < ([1, 2, 255].length + 15) / 16 →
          ∃ b rest, [1, 2, 255][16 * line]? = some b ∧ digit_char (b / 16) ≠ 32 ∧
            hexdump_line_spec [1, 2, 255] (newline_text kconfig_plain LOG_OUTPUT_FLAG_LEVEL)
                0 line =
              newline_text kconfig_plain LOG_OUTPUT_FLAG_LEVEL ++ List.replicate 0 32 ++
                (digit_char (b / 16) :: rest)) :=
  C11_hexdump_margin kconfig_plain externals_plain Clock.initial 8 (fresh_output byte_sink 8)
    0 none (some (str "src")) LOG_LEVEL_ERR (some (str "hi")) [1, 2, 255]
    LOG_OUTPUT_FLAG_LEVEL
    ⟨Or.inr ⟨byte_sink_accepts, by decide, by decide, by decide⟩, byte_sink_accepts,
      by decide, by decide, by decide⟩
    (by decide) (by decide) (by decide) (by decide)

/-- C13 (as stated, refuted): with the function-prefix mask including the severity
err, `log_output_process` renders the source name `src` of an err record with the
suffix `": "`, not `"."`. -/
theorem C13_mask_includes_severity_suffix_colon :
    (1 <<< LOG_LEVEL_ERR) &&& externals_func_prefix.LOG_FUNCTION_PREFIX_MASK ≠ 0 ∧
    (log_output_process kconfig_plain externals_func_prefix Clock.initial 16
        (fresh_output full_sink 16) 0 none (Source.name (str "src")) LOG_LEVEL_ERR
        (some (str "hi")) [] 0 0).map (fun r => r.emitted) = some (str "src: hi\r\n") := by
  decide

/-- C13 (amended): in the prefix emitted by `log_output_process` for a structured record
with a source name, the source text is suffixed with `": "` whatever the function-prefix
mask holds, because process hands `prefix_print` the literal 0 as `func_on`; the ids
block has the suffix `"."` only when `func_on` is set and the mask includes the
severity. -/
theorem C13_source_suffix_through_process {σ : Type} (k : Kconfig) (x : Externals)
    (clock : Clock) (fuel : Nat) (o : log_output σ) (timestamp : Nat)
    (domain : Option (List Nat)) (src : List Nat) (level : Nat)
    (package : Option (List Nat)) (data : List Nat) (flags : Nat)
    (hp : process_ok k fuel o) (hc : clock.freq ≠ 0 → clock.timestamp_div ≠ 0)
    (hl : level ≤ 4) (hraw : level ≠ x.LOG_LEVEL_INTERNAL_RAW_STRING)
    (hl1 : flag_set flags LOG_OUTPUT_FLAG_LEVEL = true → 1 ≤ level)
    (hbytes : ∀ b ∈ data, b < 256) (hlen : data.length < 2 ^ 32) :
    (∃ o' op head n,
      prefix_print k x clock fuel o flags false timestamp domain (some src) level =
        some (op, n) ∧
      op.emitted = o.emitted ++
        (head ++ prefix_color_text k flags level ++
          (level_tag_text (flag_set flags LOG_OUTPUT_FLAG_LEVEL) level ++
            domain_text domain ++ (src ++ str ": "))) ∧
      log_output_process k x clock fuel o timestamp domain (Source.name src) level
        package data data.length flags = some o' ∧
      o'.emitted = o.emitted ++
        ((head ++ prefix_color_text k flags level ++
          (level_tag_text (flag_set flags LOG_OUTPUT_FLAG_LEVEL) level ++
            domain_text domain ++ (src ++ str ": "))) ++
          payload_text package ++
          (hexdump_lines_spec data (newline_text k flags) (to_signed 32 n).toNat).flatten ++
          postfix_text k flags level)) ∧
    source_text x true (some src) level =
      (if (1 <<< level) &&& x.LOG_FUNCTION_PREFIX_MASK ≠ 0 then src ++ str "."
        else src ++ str ": ") := by
  refine ⟨?_, ?_⟩
  · obtain ⟨o', op, head, n, h1, e1, _, h2, e2, _⟩ :=
      log_output_process_structured k x clock fuel o timestamp domain (some src) level
        package data flags hp hc hl hraw hl1 hbytes hlen
    exact ⟨o', op, head, n, h1, e1, h2, e2⟩
  · simp [source_text]

theorem C13_source_suffix_through_process_witness :
    (∃ o' op head n,
      prefix_print kconfig_plain externals_func_prefix Clock.initial 8
          (fresh_output byte_sink 8) LOG_OUTPUT_FLAG_LEVEL false 0 (some (str "dom"))
          (some (str "src")) LOG_LEVEL_ERR =
        some (op, n) ∧
      op.emitted = (fresh_output byte_sink 8).emitted ++
        (head ++ prefix_color_text kconfig_plain LOG_OUTPUT_FLAG_LEVEL LOG_LEVEL_ERR ++
          (level_tag_text (flag_set LOG_OUTPUT_FLAG_LEVEL LOG_OUTPUT_FLAG_LEVEL)
              LOG_LEVEL_ERR ++
            domain_text (some (str "dom")) ++ (str "src" ++ str ": "))) ∧
      log_output_process kconfig_plain externals_func_prefix Clock.initial 8
        (fresh_output byte_sink 8) 0 (some (str "dom")) (Source.name (str "src"))
        LOG_LEVEL_ERR (some (str "hi")) [7] [7].length LOG_OUTPUT_FLAG_LEVEL = some o' ∧
      o'.emitted = (fresh_output byte_sink 8).emitted ++
        ((head ++ prefix_color_text kconfig_plain LOG_OUTPUT_FLAG_LEVEL LOG_LEVEL_ERR ++
          (level_tag_text (flag_set LOG_OUTPUT_FLAG_LEVEL LOG_OUTPUT_FLAG_LEVEL)
              LOG_LEVEL_ERR ++
            domain_text (some (str "dom")) ++ (str "src" ++ str ": "))) ++
          payload_text (some (str "hi")) ++
          (hexdump_lines_spec [7] (newline_text kconfig_plain LOG_OUTPUT_FLAG_LEVEL)
            (to_signed 32 n).toNat).flatten ++
          postfix_text kconfig_plain LOG_OUTPUT_FLAG_LEVEL LOG_LEVEL_ERR)) ∧
    source_text externals_func_prefix true (some (str "src")) LOG_LEVEL_ERR =
      (if (1 <<< LOG_LEVEL_ERR) &&& externals_func_prefix.LOG_FUNCTION_PREFIX_MASK ≠ 0
        then str "src" ++ str "." else str "src" ++ str ": ") :=
  C13_source_suffix_through_process kconfig_plain externals_func_prefix Clock.initial 8
    (fresh_output byte_sink 8) 0 (some (str "dom")) (str "src") LOG_LEVEL_ERR
    (some (str "hi")) [7] LOG_OUTPUT_FLAG_LEVEL
    ⟨Or.inr ⟨byte_sink_accepts, by decide, by decide, by decide⟩, byte_sink_accepts,
      by decide, by decide, by decide⟩
    (by decide) (by decide) (by decide) (by decide) (by decide) (by decide)

/-- C14 (as stated, refuted): without the network backend, `postfix_print` with the
syslog flag set (and CRLF_NONE clear) emits `"\r\n"`, not nothing. -/
theorem C14_syslog_flag_without_net_backend :
    (postfix_print kconfig_plain 8 (fresh_output full_sink 8) LOG_OUTPUT_FLAG_FORMAT_SYSLOG
        LOG_LEVEL_INF).map (fun r => r.emitted) = some (str "\r\n") := by
  decide

/-- C14 (amended): for every flags value and severity, `postfix_print` emits the colour
reset escape if and only if COLORS is set, followed by a newline chosen as: nothing if
CRLF_NONE is set or the network backend is enabled and the syslog flag is set (even
with CRLF_LFONLY), otherwise `"\n"` if CRLF_LFONLY is set, otherwise `"\r\n"`. -/
theorem C14_postfix_text {σ : Type} (k : Kconfig) (fuel : Nat) (o : log_output σ)
    (flags level : Nat) (hw : writer_ok k fuel o) :
    ∃ o', postfix_print k fuel o flags level = some o' ∧
      o'.emitted = o.emitted ++
        ((if flag_set flags LOG_OUTPUT_FLAG_COLORS = true then LOG_COLOR_CODE_DEFAULT else []) ++
         (if flag_set flags LOG_OUTPUT_FLAG_CRLF_NONE = true ∨
              (k.LOG_BACKEND_NET = true ∧
                flag_set flags LOG_OUTPUT_FLAG_FORMAT_SYSLOG = true) then []
          else if flag_set flags LOG_OUTPUT_FLAG_CRLF_LFONLY = true then str "\n"
          else str "\r\n")) := by
  obtain ⟨o', h1, w⟩ := postfix_print_step k fuel o flags level hw
  refine ⟨o', h1, ?_⟩
  rw [w.2.1]
  congr 1
  unfold postfix_text color_text newline_text
  cases flag_set flags LOG_OUTPUT_FLAG_COLORS <;> cases k.LOG_BACKEND_NET <;>
    cases flag_set flags LOG_OUTPUT_FLAG_FORMAT_SYSLOG <;>
    cases flag_set flags LOG_OUTPUT_FLAG_CRLF_NONE <;>
    cases flag_set flags LOG_OUTPUT_FLAG_CRLF_LFONLY <;> simp

theorem C14_postfix_text_witness :
    ∃ o', postfix_print kconfig_net 8 (fresh_output byte_sink 8)
        (LOG_OUTPUT_FLAG_COLORS + LOG_OUTPUT_FLAG_CRLF_LFONLY) LOG_LEVEL_WRN = some o' ∧
      o'.emitted = (fresh_output byte_sink 8).emitted ++
        ((if flag_set (LOG_OUTPUT_FLAG_COLORS + LOG_OUTPUT_FLAG_CRLF_LFONLY)
              LOG_OUTPUT_FLAG_COLORS = true then LOG_COLOR_CODE_DEFAULT else []) ++
         (if flag_set (LOG_OUTPUT_FLAG_COLORS + LOG_OUTPUT_FLAG_CRLF_LFONLY)
                LOG_OUTPUT_FLAG_CRLF_NONE = true ∨
              (kconfig_net.LOG_BACKEND_NET = true ∧
                flag_set (LOG_OUTPUT_FLAG_COLORS + LOG_OUTPUT_FLAG_CRLF_LFONLY)
                  LOG_OUTPUT_FLAG_FORMAT_SYSLOG = true) then []
          else if flag_set (LOG_OUTPUT_FLAG_COLORS + LOG_OUTPUT_FLAG_CRLF_LFONLY)
              LOG_OUTPUT_FLAG_CRLF_LFONLY = true then str "\n"
          else str "\r\n")) :=
  C14_postfix_text kconfig_net 8 (fresh_output byte_sink 8)
    (LOG_OUTPUT_FLAG_COLORS + LOG_OUTPUT_FLAG_CRLF_LFONLY) LOG_LEVEL_WRN
    (Or.inr ⟨byte_sink_accepts, by decide, by decide, by decide⟩)

/-- C19: for every input (read as an unsigned 64-bit value) the year loop of
`get_YMD_from_seconds` ends and the month loop leaves through its `break` at an index
`i <= 11`, where the seconds left are below the length of month `i + 1`, so the
12-entry table is read inside its bounds although the loop bound is 48; the result has
`1 <= month <= 12` and `1 <= day <=` the length of that month in the result year. -/
theorem C19_calendar_loops_in_bounds (seconds : Nat) :
    ∃ y s i s', year_loop (seconds % 2 ^ 64 + 1) 1970 (seconds % 2 ^ 64) = some (y, s) ∧
      month_loop y 48 0 s = some (i, s') ∧ i ≤ 11 ∧ i < days_in_month.length ∧
      s' < gregorian_month_days y (i + 1) * 86400 ∧
      get_YMD_from_seconds seconds = some ⟨y, i + 1, 1 + s' / 86400⟩ ∧
      1 ≤ i + 1 ∧ i + 1 ≤ 12 ∧ 1 ≤ 1 + s' / 86400 ∧
      1 + s' / 86400 ≤ gregorian_month_days y (i + 1) := by
  obtain ⟨y, s, hy, hs⟩ := year_loop_total (seconds % 2 ^ 64 + 1) 1970 (seconds % 2 ^ 64)
    (by omega)
  obtain ⟨j, s', hm1, _, hm3, hm4, _⟩ :=
    month_loop_spec y 48 0 s (by omega) (by omega)
      (by rw [days_before_month_one, days_before_month_13]; omega)
  have hle := gregorian_month_days_le y (j + 1)
  have hday : s' / 86400 < gregorian_month_days y (j + 1) := by
    rw [Nat.div_lt_iff_lt_mul (by norm_num)]; exact hm4
  have e1 : (1 + j) % 2 ^ 32 = j + 1 := by
    rw [Nat.mod_eq_of_lt (by norm_num; omega)]; omega
  have e2 : (1 + s' / 86400) % 2 ^ 32 = 1 + s' / 86400 :=
    Nat.mod_eq_of_lt (by norm_num; omega)
  refine ⟨y, s, j, s', hy, hm1, hm3, ?_, hm4, ?_, by omega, by omega, by omega, by omega⟩
  · simp only [days_in_month, List.length_cons, List.length_nil]; omega
  · unfold get_YMD_from_seconds
    simp only [hy, hm1, SECONDS_IN_DAY, e1, e2]

/-- C17: whenever `0 < freq <= 1000000`, for every tick value the sub-second
computation of `timestamp_print` is exact in 32-bit arithmetic: with
`remainder = ticks mod freq`, none of `remainder * 1000`, `ms * freq` and
`1000 * (remainder * 1000 - ms * freq)` reaches `2 ^ 32`, the 32-bit results are the
exact quotients, `ms < 1000`, `us < 1000` and
`ms * 1000 + us = floor(remainder * 1000000 / freq)`. -/
theorem C17_subsecond_exact (freq ticks : Nat) (h0 : 0 < freq) (h1 : freq ≤ 1000000) :
    (ticks % freq) % 2 ^ 32 = ticks % freq ∧
      (ticks % freq) * 1000 < 2 ^ 32 ∧
      subsec_ms freq (ticks % freq) * freq < 2 ^ 32 ∧
      1000 * ((ticks % freq) * 1000 - subsec_ms freq (ticks % freq) * freq) < 2 ^ 32 ∧
      subsec_ms freq (ticks % freq) = (ticks % freq) * 1000 / freq ∧
      subsec_us freq (ticks % freq) =
        1000 * ((ticks % freq) * 1000 - subsec_ms freq (ticks % freq) * freq) / freq ∧
      subsec_ms freq (ticks % freq) < 1000 ∧ subsec_us freq (ticks % freq) < 1000 ∧
      subsec_ms freq (ticks % freq) * 1000 + subsec_us freq (ticks % freq) =
        (ticks % freq) * 1000000 / freq := by
  have hr : ticks % freq < freq := Nat.mod_lt _ h0
  obtain ⟨a1, a2, a3, a4, a5, a6, a7, a8⟩ := subsec_exact freq (ticks % freq) h0 h1 hr
  refine ⟨Nat.mod_eq_of_lt (by norm_num; omega), a1, ?_, a4, a2, a5, a6, a7, a8⟩
  exact lt_of_le_of_lt a3 a1

theorem C17_subsecond_exact_witness :
    (4000000123 % 999999) % 2 ^ 32 = 4000000123 % 999999 ∧
      (4000000123 % 999999) * 1000 < 2 ^ 32 ∧
      subsec_ms 999999 (4000000123 % 999999) * 999999 < 2 ^ 32 ∧
      1000 * ((4000000123 % 999999) * 1000 -
        subsec_ms 999999 (4000000123 % 999999) * 999999) < 2 ^ 32 ∧
      subsec_ms 999999 (4000000123 % 999999) = (4000000123 % 999999) * 1000 / 999999 ∧
      subsec_us 999999 (4000000123 % 999999) =
        1000 * ((4000000123 % 999999) * 1000 -
          subsec_ms 999999 (4000000123 % 999999) * 999999) / 999999 ∧
      subsec_ms 999999 (4000000123 % 999999) < 1000 ∧
      subsec_us 999999 (4000000123 % 999999) < 1000 ∧
      subsec_ms 999999 (4000000123 % 999999) * 1000 +
          subsec_us 999999 (4000000123 % 999999) =
        (4000000123 % 999999) * 1000000 / 999999 :=
  C17_subsecond_exact 999999 4000000123 (by decide) (by decide)

end LogOutput
